import Mathlib

/-! # Peer transport layer (src/transport.js)

A shallow embedding of the request handlers and of the single-peer client of
`src/transport.js`.  Every handler is a pure function from its inputs (the
request, the local configuration and the answers of the external collaborators)
to the ordered list of observable effects it performs: Peer Directory calls,
bus events, responses, `next` calls and callback invocations.

Conventions used throughout:

* an absent JavaScript value (`undefined`) is `none`;
* a numeric header that went through `parseInt` is an `Option Int`, where
  `none` stands for `NaN` (every comparison with `NaN` is false, `NaN` is falsy);
* external library functions (`ip.toLong`, the ledger normalizers, the protobuf
  decoders, `JSON.stringify`, SHA-256, the request sanitizer) are parameters.
-/

namespace Transport

/-! ## Data model -/

/-- Opaque payloads (blocks, votes, transactions, dapp bodies, response bodies). -/
abbrev Payload := String

/-- The two fields of `library.config` read by the module. -/
structure Config where
  magic : String
  version : String
deriving DecidableEq, Repr

/-- JavaScript truthiness of a possibly absent string: absent and empty are falsy. -/
def truthyStr : Option String → Bool
  | some s => s != ""
  | none => false

/-- JavaScript `a || b` on possibly absent strings. -/
def orStr (a b : Option String) : Option String :=
  if truthyStr a then a else b

/-- JavaScript truthiness of a number: `NaN` (here `none`) and `0` are falsy. -/
def truthyNum : Option Int → Bool
  | some n => n != 0
  | none => false

/-- The object handed to `modules.peer.update`. -/
structure PeerRecord where
  ip : Option Nat
  port : Option Int
  state : Nat
  os : Option String
  version : Option String
  dappid : Option String
deriving DecidableEq, Repr

/-- The `peer` argument of `getFromPeer`: a directory peer (`ip`, `port`) or an
address-only target (`address`, as built by `sendVotes`). -/
structure Peer where
  ip : Option Nat
  port : Option Int
  address : Option String
deriving DecidableEq, Repr

/-- The error object the `request` library passes to its completion callback. -/
structure RequestError where
  code : Option String
  message : String
deriving DecidableEq, Repr

/-- What the caller's callback receives as its first argument on failure:
`err || ('request status code' + response.statusCode)`. -/
inductive CbError where
  | request (e : RequestError)
  | text (s : String)
deriving DecidableEq, Repr

/-- Scalar values found in response bodies. -/
inductive JVal where
  | undefined
  | null
  | bool (b : Bool)
  | num (n : Int)
  | str (s : String)
deriving DecidableEq, Repr

/-- Lift a possibly absent string to a response value. -/
def JVal.ofStr : Option String → JVal
  | some s => JVal.str s
  | none => JVal.undefined

/-- Observable effects, in program order. -/
inductive Effect where
  /-- Effect `res.set(private.headers)`. -/
  | setHeaders
  /-- Effect `library.logger.*`, tagged by level. -/
  | log (level : String)
  /-- Effect `modules.peer.update(peer)`. -/
  | peerUpdate (p : PeerRecord)
  /-- Effect `modules.peer.remove(ip, port, cb)`. -/
  | peerRemove (ip : Option Nat) (port : Option Int)
  /-- Effect `modules.peer.state(ip, port, state, timeoutSeconds, cb)`. -/
  | peerState (ip : Option Nat) (port : Option Int) (state : Nat) (seconds : Nat)
  /-- Effect `next()`: hand the request to the next handler. -/
  | next
  /-- Effect `next(err)`: hand the request to the error handler. -/
  | nextErr (e : String)
  /-- Effect `res.status(code).send(body)` or `res.status(code).json(body)` or `res.json(body)`. -/
  | respond (status : Nat) (body : List (String × JVal))
  /-- Effect `res.sendStatus(code)`. -/
  | sendStatus (status : Nat)
  /-- Effect `res.status(code)` alone: the status is set, nothing is sent. -/
  | statusOnly (status : Nat)
  /-- Effect `library.bus.message(topic, ...)`. -/
  | busMessage (topic : String) (args : List Payload)
  /-- Effect `library.dbLite.query(...)` with the quoted id list and the bounds. -/
  | dbQuery (escapedIds : List String) (min max : Int)
  /-- Effect `library.balancesSequence.add(...)` for a normalized transaction. -/
  | sequenceAdd (transaction : Payload)
  /-- Effect `private.messages[hash] = true`. -/
  | messagesSet (hash : String)
  /-- Effect `modules.dapps.message(dappid, body, cb)`. -/
  | dappsMessage (dappid : String) (body : Option Payload)
  /-- Effect `cb(err)` or `cb(null, (body, peer))` of `getFromPeer`. -/
  | callback (err : Option CbError) (result : Option (Payload × Peer))
deriving DecidableEq, Repr

/-- The `(ip, port)` arguments of the `modules.peer.remove` calls of a trace. -/
def removeCalls : List Effect → List (Option Nat × Option Int)
  | [] => []
  | Effect.peerRemove ip port :: es => (ip, port) :: removeCalls es
  | _ :: es => removeCalls es

/-- The arguments of the `modules.peer.state` calls of a trace. -/
def stateCalls : List Effect → List (Option Nat × Option Int × Nat × Nat)
  | [] => []
  | Effect.peerState ip port st secs :: es => (ip, port, st, secs) :: stateCalls es
  | _ :: es => stateCalls es

/-- The arguments of the `modules.peer.update` calls of a trace. -/
def updateCalls : List Effect → List PeerRecord
  | [] => []
  | Effect.peerUpdate p :: es => p :: updateCalls es
  | _ :: es => updateCalls es

/-- The error arguments of the callback invocations of a trace. -/
def callbackErrors : List Effect → List (Option CbError)
  | [] => []
  | Effect.callback e _ :: es => e :: callbackErrors es
  | _ :: es => callbackErrors es

/-! ## Single-peer client: `Transport.prototype.getFromPeer` (lines 576-675) -/

/-- Truthiness of `options.not_ban`; the other option fields only shape the
outgoing request envelope. -/
structure Options where
  not_ban : Bool
deriving DecidableEq, Repr

/-- Response headers after line 632 (`port` replaced by its `parseInt`). -/
structure ResponseHeaders where
  os : Option String
  port : Option Int
  magic : Option String
  version : Option String
deriving DecidableEq, Repr

/-- The `response` argument of the completion callback. -/
structure Response where
  statusCode : Int
  headers : ResponseHeaders
deriving DecidableEq, Repr

/-- The schema literal of lines 634-656 applied to the response headers:
`os` string of at most 64 characters (optional), `port` integer in 1..65535,
`magic` string of at most 8 characters, `version` string of at most 11
characters; `port`, `magic` and `version` required. -/
def validateResponseHeaders (h : ResponseHeaders) : Bool :=
  (match h.os with
    | none => true
    | some s => decide (s.length ≤ 64)) &&
  (match h.port with
    | none => false
    | some p => decide (1 ≤ p) && decide (p ≤ 65535)) &&
  (match h.magic with
    | none => false
    | some s => decide (s.length ≤ 8)) &&
  (match h.version with
    | none => false
    | some s => decide (s.length ≤ 11))

/-- The test `err.code == "ETIMEDOUT" || err.code == "ESOCKETTIMEDOUT" ||
err.code == "ECONNREFUSED"` of line 612. -/
def isTimeoutClass (e : RequestError) : Bool :=
  e.code == some "ETIMEDOUT" || e.code == some "ESOCKETTIMEDOUT" || e.code == some "ECONNREFUSED"

/-- The invocation `cb && cb(...)`. -/
def callCb (hasCb : Bool) (err : Option CbError) (result : Option (Payload × Peer)) : List Effect :=
  if hasCb then [Effect.callback err result] else []

/-- The completion callback of `getFromPeer` (lines 603-674), given what the
`request` library reports: `err`, `response`, `body`.  `hasCb` tells whether the
caller passed a callback.  When both `err` and `response` are absent the test of
line 604 dereferences `undefined` and throws.  The test `if (peer)` of line 611
holds for every peer object (the function already read `peer.address`).  The
info logs of lines 615 and 622 run inside the Peer Directory callbacks and are
not part of this trace. -/
def getFromPeer (cfg : Config) (peer : Peer) (options : Options) (hasCb : Bool)
    (err : Option RequestError) (response : Option Response) (body : Payload) :
    Except String (List Effect) :=
  match err, response with
  | none, none => Except.error "TypeError: cannot read statusCode of undefined"
  | some e, _ =>
    -- line 604: err is truthy
    let directory :=
      if isTimeoutClass e then [Effect.peerRemove peer.ip peer.port]
      else if !options.not_ban then [Effect.peerState peer.ip peer.port 0 600]
      else []
    Except.ok (Effect.log "debug" :: directory ++ callCb hasCb (some (CbError.request e)) none)
  | none, some r =>
    if r.statusCode != 200 then
      let directory :=
        if !options.not_ban then [Effect.peerState peer.ip peer.port 0 600] else []
      Except.ok (Effect.log "debug" :: directory ++
        callCb hasCb (some (CbError.text ("request status code" ++ toString r.statusCode))) none)
    else if !validateResponseHeaders r.headers then
      Except.ok (callCb hasCb none (some (body, peer)))
    else
      let port := r.headers.port
      let upsert :=
        match port with
        | some p =>
          if decide (p > 0) && decide (p ≤ 65535) && r.headers.version == some cfg.version then
            [Effect.peerUpdate
              { ip := peer.ip, port := some p, state := 2, os := r.headers.os,
                version := r.headers.version, dappid := none }]
          else []
        | none => []
      Except.ok (upsert ++ callCb hasCb none (some (body, peer)))

/-! ## Inbound requests -/

/-- A wire payload: base64 text still to be decoded (`typeof x == 'string'`) or
an already structured value. -/
inductive Wire where
  | encoded (base64 : String)
  | structured (value : Payload)
deriving DecidableEq, Repr

/-- The fields of `req.body` read by the handlers. -/
structure Body where
  dappid : Option String
  timestamp : Option Int
  hash : Option String
  body : Option Payload
  block : Option Wire
  votes : Option Wire
  transaction : Option Wire
deriving DecidableEq, Repr

/-- The parts of an inbound request read by the handlers.  `port` is
`req.headers['port']` as left by line 44 (`parseInt`), `headerFalse` is
`req.headers['false']`. -/
structure Request where
  forwardedFor : Option String
  remoteAddress : Option String
  port : Option Int
  magic : Option String
  headerFalse : Option String
  body : Option Body
deriving DecidableEq, Repr

/-- The expression `req.headers['x-forwarded-for'] || req.connection.remoteAddress`. -/
def peerIpOf (req : Request) : Option String :=
  orStr req.forwardedFor req.remoteAddress

/-- The header fields the middleware reads from the sanitized `headers` object. -/
structure SanitizedHeaders where
  port : Option Int
  os : Option String
  version : Option String
deriving DecidableEq, Repr

/-- What `req.sanitize` passes to its callback: a truthy `err`, or a report
(`isValid`, `issues`) together with the sanitized value. -/
inductive SanitizeResult (α : Type) where
  | error (e : String)
  | report (isValid : Bool) (issues : JVal) (value : α)

/-- External library functions used by the handlers. -/
structure Library where
  /-- Function `ip.toLong`. -/
  toLong : String → Nat
  /-- Function `library.protobuf.decodeBlock` on the base64 text; may throw. -/
  decodeBlock : String → Except String Payload
  /-- Function `library.protobuf.decodeBlockVotes`; may throw. -/
  decodeBlockVotes : String → Except String Payload
  /-- Function `library.protobuf.decodeTransaction`; may throw. -/
  decodeTransaction : String → Except String Payload
  /-- Function `library.base.block.objectNormalize`; throws on an invalid block. -/
  blockObjectNormalize : Option Payload → Except String Payload
  /-- Function `library.base.consensus.normalizeVotes`; throws on invalid votes. -/
  normalizeVotes : Option Payload → Except String Payload
  /-- Function `library.base.transaction.objectNormalize`; throws on an invalid transaction. -/
  transactionObjectNormalize : Option Payload → Except String Payload
  /-- Function `JSON.stringify`; `none` is the result `undefined`. -/
  jsonStringify : Option Payload → Option String
  /-- SHA-256 digest bytes of the UTF-8 encoding of a string
  (`crypto.createHash('sha256').update(new Buffer(s, 'utf8')).digest()`). -/
  sha256 : String → List Nat

/-! ### Header-validation middleware (lines 37-97) and error handler (lines 505-509) -/

/-- The value `peer.dappid` after lines 86-88: `req.body.dappid` when
`req.body && req.body.dappid` is truthy, otherwise absent. -/
def bodyDappid (req : Request) : Option String :=
  match req.body with
  | some b => if truthyStr b.dappid then b.dappid else none
  | none => none

/-- The second `router.use` handler.  `sanitize` is `req.sanitize` applied to
the request headers with the schema of lines 46-62. -/
def headerMiddleware (cfg : Config) (lib : Library)
    (sanitize : Request → SanitizeResult SanitizedHeaders) (req : Request) : List Effect :=
  match peerIpOf req with
  | none =>
    [Effect.respond 500 [("success", JVal.bool false), ("error", JVal.str "Wrong header data")]]
  | some peerIp =>
    if peerIp == "" then
      [Effect.respond 500 [("success", JVal.bool false), ("error", JVal.str "Wrong header data")]]
    else
      match sanitize req with
      | SanitizeResult.error e => [Effect.nextErr e]
      | SanitizeResult.report isValid issues headers =>
        if !isValid then
          [Effect.respond 500 [("status", JVal.bool false), ("error", issues)]]
        else if req.magic != some cfg.magic then
          [Effect.respond 500
            [("success", JVal.bool false),
             ("error", JVal.str "Request is made on the wrong network"),
             ("expectet", JVal.str cfg.magic),
             ("received", JVal.ofStr req.magic)]]
        else if peerIp == "127.0.0.1" then
          [Effect.next]
        else
          let peer : PeerRecord :=
            { ip := some (lib.toLong peerIp), port := headers.port, state := 2,
              os := headers.os, version := headers.version, dappid := bodyDappid req }
          let registered : Bool :=
            truthyNum peer.port &&
            (match peer.port with
              | some p => decide (p > 0) && decide (p ≤ 65535)
              | none => false) &&
            peer.version == some cfg.version && req.magic == some cfg.magic
          (if registered then [Effect.peerUpdate peer] else []) ++ [Effect.next]

/-- The application-level error handler: `err` is `some text` for a truthy
error whose `toString()` is `text`. -/
def errorHandler (err : Option String) : List Effect :=
  match err with
  | none => [Effect.next]
  | some e =>
    [Effect.log "error",
     Effect.respond 500 [("success", JVal.bool false), ("error", JVal.str e)]]

/-! ### `POST /blocks` (lines 213-241) -/

/-- The step `if (typeof x == 'string') x = decode(new Buffer(x, 'base64'))`. -/
def decodeWire (decode : String → Except String Payload) :
    Option Wire → Except String (Option Payload)
  | none => Except.ok none
  | some (Wire.structured v) => Except.ok (some v)
  | some (Wire.encoded s) =>
    match decode s with
    | Except.ok v => Except.ok (some v)
    | Except.error e => Except.error e

/-- The guard `peerIp && req.headers['port'] > 0 && req.headers['port'] < 65536`
of line 231, returning the arguments `(ip.toLong(peerIp), parseInt(port))` of the
ban when it holds.  Inside the guard the port is an integer in 1..65535, which
`parseInt` maps to itself. -/
def blocksBanTarget (lib : Library) (req : Request) : Option (Nat × Int) :=
  match peerIpOf req, req.port with
  | some peerIp, some port =>
    if peerIp != "" && decide (port > 0) && decide (port < 65536) then
      some (lib.toLong peerIp, port)
    else none
  | _, _ => none

/-- The `POST /blocks` handler.  An exception thrown outside the `try`
(dereferencing an absent body, a decoder failure) reaches the router as
`next(err)`. -/
def postBlocks (lib : Library) (req : Request) : List Effect :=
  match req.body with
  | none => [Effect.setHeaders, Effect.nextErr "TypeError"]
  | some body =>
    match decodeWire lib.decodeBlock body.block with
    | Except.error e => [Effect.setHeaders, Effect.nextErr e]
    | Except.ok rawBlock =>
      match decodeWire lib.decodeBlockVotes body.votes with
      | Except.error e => [Effect.setHeaders, Effect.nextErr e]
      | Except.ok rawVotes =>
        let caught : List Effect :=
          [Effect.setHeaders, Effect.log "log", Effect.log "log"] ++
          (match blocksBanTarget lib req with
            | some (ip, port) => [Effect.peerState (some ip) (some port) 0 3600]
            | none => []) ++
          [Effect.sendStatus 200]
        match lib.blockObjectNormalize rawBlock with
        | Except.error _ => caught
        | Except.ok block =>
          match lib.normalizeVotes rawVotes with
          | Except.error _ => caught
          | Except.ok votes =>
            [Effect.setHeaders, Effect.busMessage "receiveBlock" [block, votes],
             Effect.sendStatus 200]

/-! ### `POST /transactions` (lines 380-415) -/

/-- The guard of line 394, `peerIp && req.headers['port'] > 0 &&
req.headers['port' < 65536]`.  The index expression `'port' < 65536` compares
the string `'port'` (numerically `NaN`) with a number and is `false`, so the
third conjunct reads the header named `false`.  The ban arguments are
`(ip.toLong(peerIp), req.headers['port'])`. -/
def transactionsBanTarget (lib : Library) (req : Request) : Option (Nat × Int) :=
  match peerIpOf req, req.port with
  | some peerIp, some port =>
    if peerIp != "" && decide (port > 0) && truthyStr req.headerFalse then
      some (lib.toLong peerIp, port)
    else none
  | _, _ => none

/-- The `POST /transactions` handler up to the hand-over to
`library.balancesSequence`. -/
def postTransactions (lib : Library) (req : Request) : List Effect :=
  match req.body with
  | none => [Effect.setHeaders, Effect.nextErr "TypeError"]
  | some body =>
    match decodeWire lib.decodeTransaction body.transaction with
    | Except.error e => [Effect.setHeaders, Effect.nextErr e]
    | Except.ok raw =>
      match lib.transactionObjectNormalize raw with
      | Except.error _ =>
        [Effect.setHeaders, Effect.log "error", Effect.log "log"] ++
        (match transactionsBanTarget lib req with
          | some (ip, port) => [Effect.peerState (some ip) (some port) 0 3600]
          | none => []) ++
        [Effect.respond 200
          [("success", JVal.bool false), ("error", JVal.str "Invalid transaction body")]]
      | Except.ok transaction => [Effect.setHeaders, Effect.sequenceAdd transaction]

/-! ### Message fingerprint: `private.hashsum` (lines 512-521) -/

/-- The value of `bignum.fromBuffer(temp)`: the bytes read as a big-endian
unsigned integer. -/
def fromBuffer (bytes : List Nat) : Nat :=
  bytes.foldl (fun acc b => acc * 256 + b) 0

/-- The function `private.hashsum = function (obj)`: digest the JSON text of
`obj`, copy bytes 7 down to 0 of the digest into an 8-byte buffer and render the
buffer as a decimal string.  `JSON.stringify` returning `undefined` makes
`new Buffer` throw. -/
def hashsum (lib : Library) (obj : Option Payload) : Except String String :=
  match lib.jsonStringify obj with
  | none => Except.error "TypeError"
  | some text =>
    let hashdig := lib.sha256 text
    let temp := (List.range 8).map (fun i => (hashdig.getD (7 - i) 0) % 256)
    Except.ok (toString (fromBuffer temp))

/-- The call expression `private.hashsum(body, timestamp)` of lines 437, 478,
756 and 765.  The function declares the single parameter `obj`; JavaScript
discards the surplus argument. -/
def hashsumCall (lib : Library) (body : Option Payload) (_timestamp : Option Int) :
    Except String String :=
  hashsum lib body

/-! ### `POST /dapp/message` (lines 424-463) -/

/-- What the application dispatcher passes to the callback of
`modules.dapps.message`: `err` and `body.error` (absent when falsy). -/
structure DappReply where
  err : Option String
  bodyError : Option String
deriving DecidableEq, Repr

/-- Outcome of the validation block of lines 427-443: a response to send and
stop, or the validated `(dappid, hash, body)`. -/
def dappValidate (lib : Library) (req : Request) :
    Except (List (String × JVal)) (String × String × Option Payload) :=
  match req.body with
  | none => Except.error [("success", JVal.bool false), ("error", JVal.str "TypeError")]
  | some b =>
    match b.dappid with
    | none => Except.error [("success", JVal.bool false), ("error", JVal.str "missed dappid")]
    | some dappid =>
      if dappid == "" then
        Except.error [("success", JVal.bool false), ("error", JVal.str "missed dappid")]
      else if !truthyNum b.timestamp || !truthyStr b.hash then
        Except.error [("success", JVal.bool false), ("error", JVal.str "missed hash sum")]
      else
        match hashsumCall lib b.body b.timestamp with
        | Except.error e => Except.error [("success", JVal.bool false), ("error", JVal.str e)]
        | Except.ok newHash =>
          if b.hash != some newHash then
            Except.error [("success", JVal.bool false), ("error", JVal.str "wrong hash sum")]
          else Except.ok (dappid, newHash, b.body)

/-- The callback passed to `modules.dapps.message` (lines 451-462); the bus
event carries the request body, identified here by its hash. -/
def dappMessageCallback (hash : String) (reply : DappReply) : List Effect :=
  let err := if truthyStr reply.err then reply.err else reply.bodyError
  if truthyStr err then
    [Effect.respond 200 [("success", JVal.bool false), ("error", JVal.ofStr err)]]
  else
    [Effect.busMessage "message" [hash], Effect.respond 200 [("success", JVal.bool true)]]

/-- The `POST /dapp/message` handler on the dedup table `messages` (the keys of
`private.messages`), followed by the dispatcher callback when a delivery was
started.  Returns the new table and the effects.  A validated hash is the
decimal string computed by `hashsum`, so it never names an inherited property
of the table object. -/
def postDappMessage (lib : Library) (messages : List String) (req : Request)
    (reply : DappReply) : List String × List Effect :=
  match dappValidate lib req with
  | Except.error body => (messages, [Effect.setHeaders, Effect.respond 200 body])
  | Except.ok (dappid, hash, body) =>
    if messages.contains hash then
      (messages, [Effect.setHeaders, Effect.statusOnly 200])
    else
      (hash :: messages,
        [Effect.setHeaders, Effect.messagesSet hash, Effect.dappsMessage dappid body] ++
        dappMessageCallback hash reply)

/-- A sequence of `POST /dapp/message` requests handled one after the other;
returns the final table and, per request, the effects it caused. -/
def postDappMessageRun (lib : Library) :
    List String → List (Request × DappReply) → List String × List (Request × List Effect)
  | messages, [] => (messages, [])
  | messages, (req, reply) :: rest =>
    let step := postDappMessage lib messages req reply
    let tail := postDappMessageRun lib step.1 rest
    (tail.1, (req, step.2) :: tail.2)

/-- Number of `modules.dapps.message` invocations in a trace. -/
def deliveries : List Effect → Nat
  | [] => 0
  | Effect.dappsMessage _ _ :: es => deliveries es + 1
  | _ :: es => deliveries es

/-- Number of `'message'` bus events in a trace. -/
def messageEvents : List Effect → Nat
  | [] => 0
  | Effect.busMessage topic _ :: es =>
    if topic == "message" then messageEvents es + 1 else messageEvents es
  | _ :: es => messageEvents es

/-- The hash a request is validated under, if it passes lines 427-443. -/
def fingerprintOf (lib : Library) (req : Request) : Option String :=
  match dappValidate lib req with
  | Except.ok (_, hash, _) => some hash
  | Except.error _ => none

/-- The value `req.body.hash`. -/
def requestHash (req : Request) : Option String :=
  match req.body with
  | some b => b.hash
  | none => none

/-- Deliveries caused by the requests of a run that carry fingerprint `h`. -/
def deliveriesFor (lib : Library) (h : String) : List (Request × List Effect) → Nat
  | [] => 0
  | (req, effects) :: rest =>
    (if fingerprintOf lib req = some h then deliveries effects else 0) +
      deliveriesFor lib h rest

/-! ### `GET /blocks/common` (lines 106-183) -/

/-- The query fields after sanitization. -/
structure CommonQuery where
  max : Int
  min : Int
  ids : String
deriving DecidableEq, Repr

/-- JavaScript `s.split(sep)` for a one-character separator, on character lists. -/
def splitOn (sep : Char) : List Char → List (List Char)
  | [] => [[]]
  | c :: cs =>
    if c = sep then [] :: splitOn sep cs
    else
      match splitOn sep cs with
      | [] => [[c]]
      | t :: ts => (c :: t) :: ts

/-- JavaScript `tokens.join(sep)` on character lists. -/
def joinOn (sep : Char) : List (List Char) → List Char
  | [] => []
  | [t] => t
  | t :: ts => t ++ sep :: joinOn sep ts

/-- The test `/^\d+$/.test(id)`: one or more characters, all decimal digits. -/
def isNumericId (id : List Char) : Bool :=
  !id.isEmpty && id.all Char.isDigit

/-- The filtered id list of lines 131-133. -/
def filterIds (ids : String) : List String :=
  ((splitOn ',' ids.data).filter isNumericId).map String.mk

/-- The quoting of lines 134-136. -/
def escapeId (id : String) : String :=
  String.singleton (Char.ofNat 39) ++ id ++ String.singleton (Char.ofNat 39)

/-- The schema literal of lines 139-153 applied to the request headers: `port`
integer in 1..65535 and `magic` string of at most 8 characters, both required. -/
def validateCommonHeaders (req : Request) : Bool :=
  (match req.port with
    | none => false
    | some p => decide (1 ≤ p) && decide (p ≤ 65535)) &&
  (match req.magic with
    | none => false
    | some s => decide (s.length ≤ 8))

/-- What a handler run leaves behind: the effects performed, in order, and the
exception that ended it, if one was thrown. -/
structure HandlerRun where
  effects : List Effect
  thrown : Option String
deriving DecidableEq, Repr

/-- The `GET /blocks/common` handler.  `sanitize` is `req.sanitize` applied to
the query; `dbReply` is what the Block Store answers (an error, or the first
row if any).  The invalid-report response reads `report.issue`, a property the
report does not carry.  On line 160 the arguments of `modules.peer.state` are
evaluated before the call: `ip.toLong(peerIp)` first (a `TypeError` inside the
library when the address is absent), then `RequestSanitizer.int(...)`, where
`RequestSanitizer` is an identifier this file neither declares nor requires, so
reading it throws a `ReferenceError`.  Either way the handler is left before
`modules.peer.state` is called and before the response of line 163 is sent. -/
def getBlocksCommon (sanitize : Request → SanitizeResult CommonQuery)
    (dbReply : Except String (Option Payload)) (req : Request) : HandlerRun :=
  match sanitize req with
  | SanitizeResult.error e => { effects := [Effect.setHeaders, Effect.nextErr e], thrown := none }
  | SanitizeResult.report isValid _ query =>
    if !isValid then
      { effects :=
          [Effect.setHeaders,
           Effect.respond 200 [("success", JVal.bool false), ("error", JVal.undefined)]],
        thrown := none }
    else
      let ids := filterIds query.ids
      let escapedIds := ids.map escapeId
      if escapedIds.length == 0 then
        let report := validateCommonHeaders req
        if report then
          match peerIpOf req with
          | none =>
            { effects := [Effect.setHeaders, Effect.log "log"],
              thrown := some "TypeError: Cannot read property split of undefined" }
          | some _ =>
            { effects := [Effect.setHeaders, Effect.log "log"],
              thrown := some "ReferenceError: RequestSanitizer is not defined" }
        else
          { effects :=
              [Effect.setHeaders, Effect.log "log",
               Effect.respond 200
                 [("success", JVal.bool false),
                  ("error", JVal.str "Invalid block id sequence")]],
            thrown := none }
      else
        { effects :=
            [Effect.setHeaders, Effect.dbQuery escapedIds query.min query.max] ++
            (match dbReply with
              | Except.error _ =>
                [Effect.respond 200
                  [("success", JVal.bool false), ("error", JVal.str "Database error")]]
              | Except.ok (some row) =>
                [Effect.respond 200 [("success", JVal.bool true), ("common", JVal.str row)]]
              | Except.ok none =>
                [Effect.respond 200 [("success", JVal.bool true), ("common", JVal.null)]]),
          thrown := none }

/-- The responses sent in a trace. -/
def responses : List Effect → List (Nat × List (String × JVal))
  | [] => []
  | Effect.respond status body :: es => (status, body) :: responses es
  | _ :: es => responses es

/-- Number of Block Store queries in a trace. -/
def dbQueries : List Effect → Nat
  | [] => 0
  | Effect.dbQuery _ _ _ :: es => dbQueries es + 1
  | _ :: es => dbQueries es

/-! ## Random-peer requester: `Transport.prototype.getFromRandomPeer` (lines 540-559) -/

/-- What `getFromPeer` and the final callback hand over on success: `(body, peer)`. -/
abbrev PeerResult := Payload × Peer

/-- Events of the outbound requesters, in program order. -/
inductive ClientEvent where
  /-- Event `modules.peer.list(config, cb)` with the value of `config.limit`. -/
  | peerList (limit : Nat)
  /-- Event `self.getFromPeer(peer, options, ...)`: one outbound request is sent. -/
  | getFromPeer (peer : Peer)
  /-- An effect performed by the completion callback of `getFromPeer`. -/
  | effect (e : Effect)
  /-- The final `cb(err, results)` of the requester. -/
  | done (err : Option CbError) (result : Option PeerResult)
deriving DecidableEq, Repr

/-- What the environment answers during one attempt: the Peer Directory
(`listErr` is `some text` for a truthy error, `peers` the list otherwise) and,
should a request be sent, the `request` library (`err`, `response`, `body`). -/
structure AttemptAnswer where
  listErr : Option String
  peers : List Peer
  err : Option RequestError
  response : Option Response
  body : Payload
deriving DecidableEq, Repr

/-- The first callback invocation of a trace: its `(err, result)` arguments. -/
def callbackOf : List Effect → Option (Option CbError × Option PeerResult)
  | [] => none
  | Effect.callback e r :: _ => some (e, r)
  | _ :: es => callbackOf es

/-- The events of one attempt of the retried task (lines 548-555). -/
def attemptEvents (cfg : Config) (options : Options) (a : AttemptAnswer) : List ClientEvent :=
  ClientEvent.peerList 1 ::
    (match a.listErr, a.peers with
      | none, peer :: _ =>
        ClientEvent.getFromPeer peer ::
          (match getFromPeer cfg peer options true a.err a.response a.body with
            | Except.ok effects => effects.map ClientEvent.effect
            | Except.error _ => [])
      | _, _ => [])

/-- What one attempt passes to the callback given by `async.retry`: `(err,
result)`, or `none` when the task never calls back (the completion callback of
`getFromPeer` threw).  A directory failure passes `err || "No peers in db"`. -/
def attemptResult (cfg : Config) (options : Options) (a : AttemptAnswer) :
    Option (Option CbError × Option PeerResult) :=
  match a.listErr, a.peers with
  | none, peer :: _ =>
    (match getFromPeer cfg peer options true a.err a.response a.body with
      | Except.ok effects => callbackOf effects
      | Except.error _ => none)
  | some e, _ => some (some (CbError.text e), none)
  | none, [] => some (some (CbError.text "No peers in db"), none)

/-- The function `async.retry(times, task, callback)` for `times` remaining
attempts, the next one having index `i`: the attempts run in series; the first
attempt that calls back without error, or else the last attempt, ends the loop
and its `(err, result)` goes to the final callback.  An attempt that never calls
back leaves the loop waiting. -/
def retryLoop (events : Nat → List ClientEvent)
    (result : Nat → Option (Option CbError × Option PeerResult)) :
    Nat → Nat → List ClientEvent
  | 0, _ => []
  | remaining + 1, i =>
    match result i with
    | none => events i
    | some (none, r) => events i ++ [ClientEvent.done none r]
    | some (some e, r) =>
      if remaining = 0 then events i ++ [ClientEvent.done (some e) r]
      else events i ++ retryLoop events result remaining (i + 1)

/-- The function `getFromRandomPeer` after the argument shuffle of lines
541-545, with a callback: `config.limit = 1`, then `async.retry(20, ...)`.
`answers i` is what the environment answers during attempt `i`. -/
def getFromRandomPeer (cfg : Config) (options : Options) (answers : Nat → AttemptAnswer) :
    List ClientEvent :=
  retryLoop (fun i => attemptEvents cfg options (answers i))
    (fun i => attemptResult cfg options (answers i)) 20 0

/-- Number of Peer Directory queries (one per attempt) in a trace. -/
def attempts : List ClientEvent → Nat
  | [] => 0
  | ClientEvent.peerList _ :: es => attempts es + 1
  | _ :: es => attempts es

/-- The arguments of the final callback invocations of a trace. -/
def doneEvents : List ClientEvent → List (Option CbError × Option PeerResult)
  | [] => []
  | ClientEvent.done e r :: es => (e, r) :: doneEvents es
  | _ :: es => doneEvents es

/-- The peers `getFromPeer` was called on, in order. -/
def requestedPeers : List ClientEvent → List Peer
  | [] => []
  | ClientEvent.getFromPeer peer :: es => peer :: requestedPeers es
  | _ :: es => requestedPeers es

/-- An attempt fails: the directory reports an error or no peer, or the request
fails with an error or completes with a status code other than 200. -/
def attemptFails (a : AttemptAnswer) : Bool :=
  a.listErr.isSome || a.peers.isEmpty || a.err.isSome ||
    (match a.response with
      | some r => r.statusCode != 200
      | none => false)

/-- An attempt succeeds: the directory returns a peer and the request to it
completes without error with status code 200. -/
def attemptSucceeds (a : AttemptAnswer) : Bool :=
  a.listErr.isNone && !a.peers.isEmpty && a.err.isNone &&
    (match a.response with
      | some r => r.statusCode == 200
      | none => false)

/-- The events of `count` consecutive attempts starting with attempt `i`. -/
def eventsFrom (events : Nat → List ClientEvent) : Nat → Nat → List ClientEvent
  | 0, _ => []
  | count + 1, i => events i ++ eventsFrom events count (i + 1)

/-! ## Broadcast engine: `Transport.prototype.broadcast` (lines 523-538) -/

/-- The state of one broadcast call once the Peer Directory has answered:
`pending` are the listed peers whose iterator has not started, `running` is the
counter of `async.eachLimit` (iterators started whose callback has not run),
`sent` are the peers `getFromPeer` was called on (in order), `inFlight` the
requests sent and not yet answered, failed or timed out, and `callbacks` what
the caller's `cb` (when passed) has received: `(err, result.peer)`. -/
structure BroadcastState where
  pending : List Peer
  running : Nat
  sent : List Peer
  inFlight : List Peer
  callbacks : List (Option String × Option (List Peer))
deriving DecidableEq, Repr

/-- What happens next to a broadcast call: the oldest queued `setImmediate(cb)`
of an iterator runs, or the request at position `i` of the in-flight list is
answered, fails or times out. -/
inductive BroadcastEvent where
  | immediate
  | settle (i : Nat)
deriving DecidableEq, Repr

/-- The loop `replenish` of `async.eachLimit`: while fewer than `limit`
iterators run and items remain, start the iterator on the next item.  The
iterator of lines 527-531 calls `self.getFromPeer(peer, options)`, which sends
the request, and queues its callback with `setImmediate(cb)`. -/
def replenish (limit : Nat) : List Peer → BroadcastState → BroadcastState
  | [], s => { s with pending := [] }
  | peer :: rest, s =>
    if s.running < limit then
      replenish limit rest
        { s with pending := rest, running := s.running + 1, sent := s.sent ++ [peer],
                 inFlight := s.inFlight ++ [peer] }
    else { s with pending := peer :: rest }

/-- The call `broadcast(config, options, cb)` up to the first return to the
event loop, given the answer of `modules.peer.list` (`listErr` is `some text`
for a truthy error).  On an error the callback gets it (line 535 queues that
call with `setImmediate`; it is recorded here as made); an empty list completes
at once; otherwise `async.eachLimit(peers, 5, ...)` starts its first iterators. -/
def broadcastStart (listErr : Option String) (peers : List Peer) : BroadcastState :=
  match listErr with
  | some e =>
    { pending := [], running := 0, sent := [], inFlight := [], callbacks := [(some e, none)] }
  | none =>
    if peers.isEmpty then
      { pending := [], running := 0, sent := [], inFlight := [],
        callbacks := [(none, some peers)] }
    else
      replenish 5 peers
        { pending := peers, running := 0, sent := [], inFlight := [], callbacks := [] }

/-- One event of a broadcast over `peers`.  An iterator callback decrements
`running`; when every item has been handled it runs the final function of line
531, which reports `(null, (body: null, peer: peers))`, otherwise it
replenishes.  A settled request leaves the in-flight list; broadcast passed no
callback to `getFromPeer`, so nothing else changes. -/
def broadcastStep (peers : List Peer) (s : BroadcastState) : BroadcastEvent → BroadcastState
  | BroadcastEvent.immediate =>
    if s.running = 0 then s
    else
      let s1 := { s with running := s.running - 1 }
      if s1.pending.isEmpty then
        if s1.running = 0 then { s1 with callbacks := s1.callbacks ++ [(none, some peers)] }
        else s1
      else replenish 5 s1.pending s1
  | BroadcastEvent.settle i => { s with inFlight := s.inFlight.eraseIdx i }

/-- The state of a broadcast over `peers` after a sequence of events. -/
def broadcastRun (peers : List Peer) (events : List BroadcastEvent) : BroadcastState :=
  events.foldl (broadcastStep peers) (broadcastStart none peers)

/-- Number of iterator callbacks among the events. -/
def immediates : List BroadcastEvent → Nat
  | [] => 0
  | BroadcastEvent.immediate :: es => immediates es + 1
  | BroadcastEvent.settle _ :: es => immediates es

/-- The invariant of a broadcast over `peers` after `ticks` iterator callbacks. -/
def BroadcastInv (peers : List Peer) (ticks : Nat) (s : BroadcastState) : Prop :=
  s.running ≤ 5 ∧
  s.sent ++ s.pending = peers ∧
  s.inFlight.Sublist s.sent ∧
  (s.pending ≠ [] → s.running = 5) ∧
  s.pending.length + s.running = peers.length - ticks ∧
  s.callbacks = (if peers.length ≤ ticks then [(none, some peers)] else [])

/-! ## Concrete values used in the examples -/

/-- A node on network `mainnet1` speaking protocol version `1.0.0`. -/
def exampleConfig : Config := { magic := "mainnet1", version := "1.0.0" }

/-- A reading of `ip.toLong` on dotted quads: the octets as base-256 digits. -/
def dottedToLong (address : String) : Nat :=
  ((splitOn '.' address.data).foldl
    (fun acc octet => acc * 256 + octet.foldl (fun n c => n * 10 + (c.toNat - 48)) 0) 0) % 2 ^ 32

/-- A library whose normalizers reject everything; its stand-in digest has the
length of the text as first byte and zeros after it. -/
def rejectingLibrary : Library :=
  { toLong := dottedToLong
    decodeBlock := fun s => Except.ok s
    decodeBlockVotes := fun s => Except.ok s
    decodeTransaction := fun s => Except.ok s
    blockObjectNormalize := fun _ => Except.error "invalid block"
    normalizeVotes := fun _ => Except.error "invalid votes"
    transactionObjectNormalize := fun _ => Except.error "invalid transaction"
    jsonStringify := fun b => b
    sha256 := fun s => s.length % 256 :: List.replicate 31 0 }

/-- A peer of the directory, 10.0.0.1:8000. -/
def examplePeer : Peer := { ip := some 167772161, port := some 8000, address := none }

/-- A sanitizer that accepts every header set and passes port, os and version through. -/
def acceptingSanitizer (os version : Option String) (req : Request) :
    SanitizeResult SanitizedHeaders :=
  SanitizeResult.report true JVal.null { port := req.port, os := os, version := version }

/-- A request from 10.0.0.1 with the local magic whose `port` header is missing
(`parseInt` left `NaN`), carrying the given body. -/
def portlessRequest (body : Body) : Request :=
  { forwardedFor := none, remoteAddress := some "10.0.0.1", port := none,
    magic := some "mainnet1", headerFalse := none, body := some body }

/-- A request from 10.0.0.1 with the local magic and `port` header 8000,
carrying the given body. -/
def port8000Request (body : Body) : Request :=
  { forwardedFor := none, remoteAddress := some "10.0.0.1", port := some 8000,
    magic := some "mainnet1", headerFalse := none, body := some body }

/-- A well-formed dapp message for `rejectingLibrary`: body `hi` has fingerprint `2`. -/
def exampleDappRequest : Request :=
  port8000Request
    { dappid := some "d1", timestamp := some 1500000000000, hash := some "2", body := some "hi",
      block := none, votes := none, transaction := none }

/-- A dispatcher reply reporting success. -/
def okReply : DappReply := { err := none, bodyError := none }

/-- A query sanitizer that accepts and returns the given query. -/
def acceptingQuery (query : CommonQuery) (_req : Request) : SanitizeResult CommonQuery :=
  SanitizeResult.report true JVal.null query

/-- A Peer Directory that has no peer to offer. -/
def noPeerAnswer : AttemptAnswer :=
  { listErr := none, peers := [], err := none, response := none, body := "" }

/-- A Peer Directory offering `examplePeer`, whose answer is status 200 without
protocol headers and with body `pong`. -/
def successAnswer : AttemptAnswer :=
  { listErr := none, peers := [examplePeer], err := none,
    response := some { statusCode := 200,
                       headers := { os := none, port := none, magic := none, version := none } },
    body := "pong" }

/-- Twenty directory peers, 10.0.0.0:8000 to 10.0.0.19:8000. -/
def twentyPeers : List Peer :=
  (List.range 20).map (fun i => { ip := some (167772160 + i), port := some 8000, address := none })

/-- An empty request body. -/
def emptyBody : Body :=
  { dappid := none, timestamp := none, hash := none, body := none,
    block := none, votes := none, transaction := none }

/-! ## Theorems -/

/-! ### Single-peer client -/

/-- C1: when the outbound request fails with an error whose code is ETIMEDOUT,
ESOCKETTIMEDOUT or ECONNREFUSED, `getFromPeer` returns normally having issued
exactly one `modules.peer.remove(peer.ip, peer.port)` call, no
`modules.peer.state` call and no update, whatever `options.not_ban` is, and the
callback (when one was passed) is invoked once with that error. -/
theorem getFromPeer_timeout_removes_peer (cfg : Config) (peer : Peer) (options : Options)
    (hasCb : Bool) (e : RequestError) (response : Option Response) (body : Payload)
    (hcode : e.code = some "ETIMEDOUT" ∨ e.code = some "ESOCKETTIMEDOUT" ∨
      e.code = some "ECONNREFUSED") :
    ∃ effects,
      getFromPeer cfg peer options hasCb (some e) response body = Except.ok effects ∧
      effects = Effect.log "debug" :: Effect.peerRemove peer.ip peer.port ::
        callCb hasCb (some (CbError.request e)) none ∧
      removeCalls effects = [(peer.ip, peer.port)] ∧
      stateCalls effects = [] ∧
      updateCalls effects = [] ∧
      callbackErrors effects = if hasCb then [some (CbError.request e)] else [] := by
  have ht : isTimeoutClass e = true := by
    rcases hcode with h | h | h <;> simp [isTimeoutClass, h]
  refine ⟨_, ?_, rfl, ?_, ?_, ?_, ?_⟩
  · simp [getFromPeer, ht]
  all_goals cases hasCb <;> simp [callCb, removeCalls, stateCalls, updateCalls, callbackErrors]

/-- Witness for C1: a socket timeout on a request sent with `not_ban` unset. -/
theorem getFromPeer_timeout_removes_peer_witness :
    (some "ESOCKETTIMEDOUT" = some "ETIMEDOUT" ∨
      some "ESOCKETTIMEDOUT" = some "ESOCKETTIMEDOUT" ∨
      some "ESOCKETTIMEDOUT" = some "ECONNREFUSED") ∧
    ∃ effects,
      getFromPeer exampleConfig { ip := some 167772161, port := some 8000, address := none }
        { not_ban := false } true (some { code := some "ESOCKETTIMEDOUT", message := "timeout" })
        none "" = Except.ok effects ∧
      effects = Effect.log "debug" :: Effect.peerRemove (some 167772161) (some 8000) ::
        callCb true (some (CbError.request
          { code := some "ESOCKETTIMEDOUT", message := "timeout" })) none ∧
      removeCalls effects = [(some 167772161, some 8000)] ∧
      stateCalls effects = [] ∧
      updateCalls effects = [] ∧
      callbackErrors effects = if true then [some (CbError.request
          { code := some "ESOCKETTIMEDOUT", message := "timeout" })] else [] :=
  ⟨Or.inr (Or.inl rfl),
    getFromPeer_timeout_removes_peer exampleConfig
      { ip := some 167772161, port := some 8000, address := none } { not_ban := false } true
      { code := some "ESOCKETTIMEDOUT", message := "timeout" } none "" (Or.inr (Or.inl rfl))⟩

/-- C2: when the outbound request fails with an error whose code is none of
ETIMEDOUT, ESOCKETTIMEDOUT, ECONNREFUSED, or completes without error with a
status code other than 200, `getFromPeer` issues no remove and no update; it
issues exactly one `modules.peer.state(peer.ip, peer.port, 0, 600)` call when
`options.not_ban` is unset and no Peer Directory call when it is set; the
callback (when one was passed) is invoked once, with the underlying error or
with the text `request status code` followed by the status code. -/
theorem getFromPeer_other_failure_bans (cfg : Config) (peer : Peer) (options : Options)
    (hasCb : Bool) (err : Option RequestError) (response : Option Response) (body : Payload)
    (hfail :
      (∃ e, err = some e ∧ e.code ≠ some "ETIMEDOUT" ∧ e.code ≠ some "ESOCKETTIMEDOUT" ∧
        e.code ≠ some "ECONNREFUSED") ∨
      (err = none ∧ ∃ r, response = some r ∧ r.statusCode ≠ 200)) :
    ∃ effects cbErr,
      getFromPeer cfg peer options hasCb err response body = Except.ok effects ∧
      removeCalls effects = [] ∧
      updateCalls effects = [] ∧
      stateCalls effects =
        (if options.not_ban then [] else [(peer.ip, peer.port, 0, 600)]) ∧
      callbackErrors effects = (if hasCb then [some cbErr] else []) ∧
      (∀ e, err = some e → cbErr = CbError.request e) ∧
      (∀ r, err = none → response = some r →
        cbErr = CbError.text ("request status code" ++ toString r.statusCode)) := by
  rcases hfail with ⟨e, rfl, h1, h2, h3⟩ | ⟨rfl, r, rfl, hr⟩
  · have ht : isTimeoutClass e = false := by
      simp [isTimeoutClass, h1, h2, h3]
    refine ⟨Effect.log "debug" ::
      ((if !options.not_ban then [Effect.peerState peer.ip peer.port 0 600] else []) ++
        callCb hasCb (some (CbError.request e)) none), CbError.request e, ?_, ?_⟩
    · simp [getFromPeer, ht]
    · cases hasCb <;> cases hnb : options.not_ban <;>
        simp [callCb, removeCalls, stateCalls, updateCalls, callbackErrors]
  · refine ⟨Effect.log "debug" ::
      ((if !options.not_ban then [Effect.peerState peer.ip peer.port 0 600] else []) ++
        callCb hasCb (some (CbError.text ("request status code" ++ toString r.statusCode))) none),
      CbError.text ("request status code" ++ toString r.statusCode), ?_, ?_⟩
    · simp [getFromPeer, hr]
    · cases hasCb <;> cases hnb : options.not_ban <;>
        simp [callCb, removeCalls, stateCalls, updateCalls, callbackErrors]

/-- Witness for C2: a 404 answer to a request sent with `not_ban` unset. -/
theorem getFromPeer_other_failure_bans_witness :
    ∃ effects cbErr,
      getFromPeer exampleConfig { ip := some 167772161, port := some 8000, address := none }
        { not_ban := false } true none
        (some { statusCode := 404,
                headers := { os := none, port := none, magic := none, version := none } })
        "" = Except.ok effects ∧
      removeCalls effects = [] ∧
      updateCalls effects = [] ∧
      stateCalls effects =
        (if ({ not_ban := false } : Options).not_ban then []
          else [(some 167772161, some 8000, 0, 600)]) ∧
      callbackErrors effects = (if true then [some cbErr] else []) ∧
      (∀ e, (none : Option RequestError) = some e → cbErr = CbError.request e) ∧
      (∀ r, (none : Option RequestError) = none →
        some ({ statusCode := 404,
                headers := { os := none, port := none, magic := none, version := none } } :
          Response) = some r →
        cbErr = CbError.text ("request status code" ++ toString r.statusCode)) :=
  getFromPeer_other_failure_bans exampleConfig
    { ip := some 167772161, port := some 8000, address := none } { not_ban := false } true none
    (some { statusCode := 404,
            headers := { os := none, port := none, magic := none, version := none } }) ""
    (Or.inr ⟨rfl, _, rfl, by decide⟩)

/-- C4 (evaluation at the failing input): on a node of network `mainnet1`, a
200 response advertising magic `wrongnet` with the local version and a valid
port makes `getFromPeer` upsert the responder with state 2 (ACTIVE): the
outbound path compares the version only, never the magic. -/
theorem getFromPeer_activates_foreign_magic :
    getFromPeer exampleConfig { ip := some 167772161, port := some 8000, address := none }
      { not_ban := false } true none
      (some { statusCode := 200,
              headers := { os := some "linux", port := some 8000, magic := some "wrongnet",
                           version := some "1.0.0" } })
      "ok" =
    Except.ok
      [Effect.peerUpdate
        { ip := some 167772161, port := some 8000, state := 2, os := some "linux",
          version := some "1.0.0", dappid := none },
       Effect.callback none
        (some ("ok", { ip := some 167772161, port := some 8000, address := none }))] ∧
    some "wrongnet" ≠ some exampleConfig.magic := by
  constructor
  · rfl
  · decide

/-! ### Header-validation middleware -/

/-- C3: for every inbound request whose magic header differs from the local
magic (whatever the caller address, loopback included), the header middleware
never calls `next()`, issues no `modules.peer.update` call, and rejects: it
either answers with status 500 itself or forwards a sanitizer error with
`next(err)`, which the error handler answers with status 500.  When the caller
address resolves and the headers pass the schema, the 500 response carries the
local magic (under `expectet`) and the received magic (under `received`). -/
theorem headerMiddleware_wrong_magic_rejected (cfg : Config) (lib : Library)
    (sanitize : Request → SanitizeResult SanitizedHeaders) (req : Request)
    (hmagic : req.magic ≠ some cfg.magic) :
    Effect.next ∉ headerMiddleware cfg lib sanitize req ∧
    updateCalls (headerMiddleware cfg lib sanitize req) = [] ∧
    ((∃ body, headerMiddleware cfg lib sanitize req = [Effect.respond 500 body]) ∨
      (∃ e, headerMiddleware cfg lib sanitize req = [Effect.nextErr e] ∧
        errorHandler (some e) =
          [Effect.log "error",
           Effect.respond 500 [("success", JVal.bool false), ("error", JVal.str e)]])) ∧
    (∀ peerIp issues headers, peerIpOf req = some peerIp → peerIp ≠ "" →
      sanitize req = SanitizeResult.report true issues headers →
      headerMiddleware cfg lib sanitize req =
        [Effect.respond 500
          [("success", JVal.bool false),
           ("error", JVal.str "Request is made on the wrong network"),
           ("expectet", JVal.str cfg.magic),
           ("received", JVal.ofStr req.magic)]]) := by
  have key : (∃ body, headerMiddleware cfg lib sanitize req = [Effect.respond 500 body]) ∨
      (∃ e, headerMiddleware cfg lib sanitize req = [Effect.nextErr e]) := by
    unfold headerMiddleware
    cases hip : peerIpOf req with
    | none => exact Or.inl ⟨_, rfl⟩
    | some peerIp =>
      by_cases hempty : peerIp = ""
      · simp [hempty]
      · cases hs : sanitize req with
        | error e => simp [hempty]
        | report isValid issues headers =>
          cases isValid <;> simp [hempty, hmagic]
  refine ⟨?_, ?_, ?_, ?_⟩
  · rcases key with ⟨body, h⟩ | ⟨e, h⟩ <;> simp [h]
  · rcases key with ⟨body, h⟩ | ⟨e, h⟩ <;> simp [h, updateCalls]
  · rcases key with ⟨body, h⟩ | ⟨e, h⟩
    · exact Or.inl ⟨body, h⟩
    · exact Or.inr ⟨e, h, rfl⟩
  · intro peerIp issues headers hip hne hs
    simp [headerMiddleware, hip, hne, hs, hmagic]

/-- Witness for C3: the header set with magic `wrongnet` and version `1.0.0`
arriving from the loopback address on a node configured with magic `mainnet1`. -/
theorem headerMiddleware_wrong_magic_rejected_witness :
    ({ forwardedFor := none, remoteAddress := some "127.0.0.1", port := some 8000,
       magic := some "wrongnet", headerFalse := none, body := none } : Request).magic ≠
      some exampleConfig.magic ∧
    headerMiddleware exampleConfig rejectingLibrary (acceptingSanitizer none (some "1.0.0"))
      { forwardedFor := none, remoteAddress := some "127.0.0.1", port := some 8000,
        magic := some "wrongnet", headerFalse := none, body := none } =
      [Effect.respond 500
        [("success", JVal.bool false),
         ("error", JVal.str "Request is made on the wrong network"),
         ("expectet", JVal.str "mainnet1"),
         ("received", JVal.str "wrongnet")]] :=
  ⟨by decide,
    (headerMiddleware_wrong_magic_rejected exampleConfig rejectingLibrary
      (acceptingSanitizer none (some "1.0.0"))
      { forwardedFor := none, remoteAddress := some "127.0.0.1", port := some 8000,
        magic := some "wrongnet", headerFalse := none, body := none }
      (by decide)).2.2.2 "127.0.0.1" JVal.null
      { port := some 8000, os := none, version := some "1.0.0" } rfl (by decide) rfl⟩

/-- Every upsert issued by the header middleware has state 2 and is for a
request whose magic equals the local magic and whose sanitized version equals
the local version. -/
theorem headerMiddleware_update_matches (cfg : Config) (lib : Library)
    (sanitize : Request → SanitizeResult SanitizedHeaders) (req : Request) (p : PeerRecord)
    (hp : p ∈ updateCalls (headerMiddleware cfg lib sanitize req)) :
    p.state = 2 ∧ p.version = some cfg.version ∧ req.magic = some cfg.magic := by
  unfold headerMiddleware at hp
  cases hip : peerIpOf req with
  | none => simp [hip, updateCalls] at hp
  | some peerIp =>
    simp only [hip] at hp
    split at hp
    · simp [updateCalls] at hp
    · cases hs : sanitize req with
      | error e => simp [hs, updateCalls] at hp
      | report isValid issues headers =>
        simp only [hs] at hp
        split at hp
        · simp [updateCalls] at hp
        · split at hp
          · simp [updateCalls] at hp
          · split at hp
            · simp [updateCalls] at hp
            · split at hp
              · rename_i hreg
                simp only [List.singleton_append, updateCalls, List.mem_singleton] at hp
                subst hp
                simp only [Bool.and_eq_true, beq_iff_eq] at hreg
                exact ⟨rfl, hreg.1.2, hreg.2⟩
              · simp [updateCalls] at hp

/-- C5: for every inbound request whose caller address resolves, whose headers
pass the schema and whose magic equals the local magic, the middleware issues
exactly one `modules.peer.update` call, with ip `toLong(caller address)`, the
port, state 2, os, version and the (truthy) body dappid if any, when the caller
address is not 127.0.0.1, the port is within 1..65535 and the version equals the
local version, and it issues no update otherwise; in both cases it then calls
`next()`, so the request proceeds to the endpoint handler. -/
theorem headerMiddleware_registers_iff (cfg : Config) (lib : Library)
    (sanitize : Request → SanitizeResult SanitizedHeaders) (req : Request)
    (peerIp : String) (issues : JVal) (headers : SanitizedHeaders)
    (hip : peerIpOf req = some peerIp) (hne : peerIp ≠ "")
    (hvalid : sanitize req = SanitizeResult.report true issues headers)
    (hmagic : req.magic = some cfg.magic) :
    ((peerIp ≠ "127.0.0.1" ∧ (∃ p, headers.port = some p ∧ 1 ≤ p ∧ p ≤ 65535) ∧
        headers.version = some cfg.version) →
      headerMiddleware cfg lib sanitize req =
        [Effect.peerUpdate
          { ip := some (lib.toLong peerIp), port := headers.port, state := 2,
            os := headers.os, version := headers.version, dappid := bodyDappid req },
         Effect.next]) ∧
    (¬ (peerIp ≠ "127.0.0.1" ∧ (∃ p, headers.port = some p ∧ 1 ≤ p ∧ p ≤ 65535) ∧
        headers.version = some cfg.version) →
      headerMiddleware cfg lib sanitize req = [Effect.next]) ∧
    (updateCalls (headerMiddleware cfg lib sanitize req) =
        [{ ip := some (lib.toLong peerIp), port := headers.port, state := 2,
           os := headers.os, version := headers.version, dappid := bodyDappid req }] ↔
      (peerIp ≠ "127.0.0.1" ∧ (∃ p, headers.port = some p ∧ 1 ≤ p ∧ p ≤ 65535) ∧
        headers.version = some cfg.version)) := by
  have hyes : (peerIp ≠ "127.0.0.1" ∧ (∃ p, headers.port = some p ∧ 1 ≤ p ∧ p ≤ 65535) ∧
        headers.version = some cfg.version) →
      headerMiddleware cfg lib sanitize req =
        [Effect.peerUpdate
          { ip := some (lib.toLong peerIp), port := headers.port, state := 2,
            os := headers.os, version := headers.version, dappid := bodyDappid req },
         Effect.next] := by
    rintro ⟨hloop, ⟨p, hp, h1, h2⟩, hv⟩
    have hp0 : p ≠ 0 := by omega
    have hpos : 0 < p := by omega
    simp [headerMiddleware, hip, hne, hvalid, hmagic, hloop, hp, hv, truthyNum, hp0, hpos, h2]
  have hno : ¬ (peerIp ≠ "127.0.0.1" ∧ (∃ p, headers.port = some p ∧ 1 ≤ p ∧ p ≤ 65535) ∧
        headers.version = some cfg.version) →
      headerMiddleware cfg lib sanitize req = [Effect.next] := by
    intro hnot
    by_cases hloop : peerIp = "127.0.0.1"
    · simp [headerMiddleware, hip, hne, hvalid, hmagic, hloop]
    · have hreg : ¬ ((∃ p, headers.port = some p ∧ 1 ≤ p ∧ p ≤ 65535) ∧
          headers.version = some cfg.version) := fun h => hnot ⟨hloop, h⟩
      simp only [headerMiddleware, hip, hvalid, hmagic]
      cases hport : headers.port with
      | none => simp [hne, hloop, truthyNum]
      | some p =>
        by_cases hv : headers.version = some cfg.version
        · have hr : ¬ (1 ≤ p ∧ p ≤ 65535) := fun h => hreg ⟨⟨p, hport, h⟩, hv⟩
          have : ¬ (0 < p ∧ p ≤ 65535) := fun h => hr ⟨by omega, h.2⟩
          simp [hne, hloop, truthyNum, hv]
          intro _ h0
          by_contra hle
          exact this ⟨h0, by omega⟩
        · simp [hne, hloop, hv]
  refine ⟨hyes, hno, ?_⟩
  constructor
  · intro hupd
    by_contra hnot
    rw [hno hnot] at hupd
    simp [updateCalls] at hupd
  · intro h
    rw [hyes h]
    rfl

/-- Witness for C5: a request from 10.0.0.1 advertising port 8000, the local
magic and the local version, with body dappid `d1`, is registered and proceeds. -/
theorem headerMiddleware_registers_iff_witness :
    headerMiddleware exampleConfig rejectingLibrary
      (acceptingSanitizer (some "linux") (some "1.0.0"))
      { forwardedFor := none, remoteAddress := some "10.0.0.1", port := some 8000,
        magic := some "mainnet1", headerFalse := none,
        body := some { emptyBody with dappid := some "d1" } } =
      [Effect.peerUpdate
        { ip := some 167772161, port := some 8000, state := 2, os := some "linux",
          version := some "1.0.0", dappid := some "d1" },
       Effect.next] :=
  (headerMiddleware_registers_iff exampleConfig rejectingLibrary
    (acceptingSanitizer (some "linux") (some "1.0.0"))
    { forwardedFor := none, remoteAddress := some "10.0.0.1", port := some 8000,
      magic := some "mainnet1", headerFalse := none,
      body := some { emptyBody with dappid := some "d1" } }
    "10.0.0.1" JVal.null { port := some 8000, os := some "linux", version := some "1.0.0" }
    rfl (by decide) rfl rfl).1
    ⟨by decide, ⟨8000, rfl, by decide, by decide⟩, rfl⟩

/-! ### `POST /blocks` -/

/-- C6 (counterexample): a `POST /blocks` request from 10.0.0.1 whose `port`
header is missing and whose block fails normalization is answered with status
200 without any `modules.peer.state` call: the sender is not banned. -/
theorem postBlocks_no_ban_without_port :
    rejectingLibrary.blockObjectNormalize (some "junk") = Except.error "invalid block" ∧
    postBlocks rejectingLibrary
        (portlessRequest { emptyBody with block := some (Wire.structured "junk") }) =
      [Effect.setHeaders, Effect.log "log", Effect.log "log", Effect.sendStatus 200] ∧
    stateCalls (postBlocks rejectingLibrary
        (portlessRequest { emptyBody with block := some (Wire.structured "junk") })) = [] := by
  refine ⟨rfl, ?_, ?_⟩ <;> decide

/-- C6 (amended): for every `POST /blocks` request whose decoded block or votes
fail normalization, the handler emits no bus event and ends by responding with
status 200; it bans the sender with `modules.peer.state(toLong(ip), port, 0,
3600)`, exactly once, when the caller address is present and the `port` header
is a number with 0 < port < 65536, and issues no Peer Directory call otherwise. -/
theorem postBlocks_normalization_failure (lib : Library) (req : Request) (body : Body)
    (rawBlock rawVotes : Option Payload)
    (hbody : req.body = some body)
    (hblock : decodeWire lib.decodeBlock body.block = Except.ok rawBlock)
    (hvotes : decodeWire lib.decodeBlockVotes body.votes = Except.ok rawVotes)
    (hfail : (∃ e, lib.blockObjectNormalize rawBlock = Except.error e) ∨
      (∃ e, lib.normalizeVotes rawVotes = Except.error e)) :
    (∀ topic args, Effect.busMessage topic args ∉ postBlocks lib req) ∧
    (∀ peerIp port, peerIpOf req = some peerIp → peerIp ≠ "" → req.port = some port →
      0 < port → port < 65536 →
      postBlocks lib req =
        [Effect.setHeaders, Effect.log "log", Effect.log "log",
         Effect.peerState (some (lib.toLong peerIp)) (some port) 0 3600,
         Effect.sendStatus 200]) ∧
    (¬ (∃ peerIp port, peerIpOf req = some peerIp ∧ peerIp ≠ "" ∧ req.port = some port ∧
        0 < port ∧ port < 65536) →
      postBlocks lib req =
        [Effect.setHeaders, Effect.log "log", Effect.log "log", Effect.sendStatus 200]) := by
  have hcaught : postBlocks lib req =
      [Effect.setHeaders, Effect.log "log", Effect.log "log"] ++
        (match blocksBanTarget lib req with
          | some (ip, port) => [Effect.peerState (some ip) (some port) 0 3600]
          | none => []) ++
        [Effect.sendStatus 200] := by
    simp only [postBlocks, hbody, hblock, hvotes]
    rcases hfail with ⟨e, he⟩ | ⟨e, he⟩
    · simp only [he]
    · cases hb : lib.blockObjectNormalize rawBlock with
      | error e2 => rfl
      | ok block => simp only [he]
  have hyes : ∀ peerIp port, peerIpOf req = some peerIp → peerIp ≠ "" → req.port = some port →
      0 < port → port < 65536 → blocksBanTarget lib req = some (lib.toLong peerIp, port) := by
    intro peerIp port hip hne hport h0 h1
    simp [blocksBanTarget, hip, hport, hne, h0, h1]
  have hno : ¬ (∃ peerIp port, peerIpOf req = some peerIp ∧ peerIp ≠ "" ∧ req.port = some port ∧
        0 < port ∧ port < 65536) → blocksBanTarget lib req = none := by
    intro hnot
    unfold blocksBanTarget
    cases hip : peerIpOf req with
    | none => rfl
    | some peerIp =>
      cases hport : req.port with
      | none => rfl
      | some port =>
        have : ¬ (peerIp ≠ "" ∧ 0 < port ∧ port < 65536) :=
          fun h => hnot ⟨peerIp, port, hip, h.1, hport, h.2.1, h.2.2⟩
        simp only [bne_iff_ne, ne_eq, gt_iff_lt, Bool.and_eq_true, decide_eq_true_eq]
        rw [if_neg]
        intro h
        exact this ⟨h.1.1, h.1.2, h.2⟩
  refine ⟨?_, ?_, ?_⟩
  · intro topic args
    rw [hcaught]
    cases blocksBanTarget lib req with
    | none => simp
    | some t => simp
  · intro peerIp port hip hne hport h0 h1
    rw [hcaught, hyes peerIp port hip hne hport h0 h1]
    rfl
  · intro hnot
    rw [hcaught, hno hnot]
    rfl

/-- Witness for C6 (amended): the rejected block sent from 10.0.0.1 with `port`
header 8000 gets the sender banned for 3600 seconds and a 200 status. -/
theorem postBlocks_normalization_failure_witness :
    postBlocks rejectingLibrary
        (port8000Request { emptyBody with block := some (Wire.structured "junk") }) =
      [Effect.setHeaders, Effect.log "log", Effect.log "log",
       Effect.peerState (some 167772161) (some 8000) 0 3600,
       Effect.sendStatus 200] :=
  (postBlocks_normalization_failure rejectingLibrary
    (port8000Request { emptyBody with block := some (Wire.structured "junk") })
    { emptyBody with block := some (Wire.structured "junk") } (some "junk") none
    rfl rfl rfl (Or.inl ⟨"invalid block", rfl⟩)).2.1 "10.0.0.1" 8000 rfl (by decide) rfl
    (by decide) (by decide)

/-! ### `POST /transactions` -/

/-- C7 (evaluation at the failing input): a `POST /transactions` request from
10.0.0.1 with `port` header 8000 whose transaction fails normalization is
answered with the `Invalid transaction body` error and nothing is enqueued, but
no `modules.peer.state` call is issued: the sender is not banned. -/
theorem postTransactions_invalid_not_banned :
    rejectingLibrary.transactionObjectNormalize (some "junk") =
      Except.error "invalid transaction" ∧
    postTransactions rejectingLibrary
        (port8000Request { emptyBody with transaction := some (Wire.structured "junk") }) =
      [Effect.setHeaders, Effect.log "error", Effect.log "log",
       Effect.respond 200
        [("success", JVal.bool false), ("error", JVal.str "Invalid transaction body")]] ∧
    stateCalls (postTransactions rejectingLibrary
        (port8000Request { emptyBody with transaction := some (Wire.structured "junk") })) = [] := by
  refine ⟨rfl, ?_, ?_⟩ <;> decide

/-- The ban of line 395 needs a request header literally named `false`: without
one, `POST /transactions` never calls `modules.peer.state`. -/
theorem postTransactions_ban_needs_false_header (lib : Library) (req : Request)
    (hfalse : truthyStr req.headerFalse = false) :
    stateCalls (postTransactions lib req) = [] := by
  have htarget : transactionsBanTarget lib req = none := by
    unfold transactionsBanTarget
    cases peerIpOf req with
    | none => rfl
    | some peerIp =>
      cases req.port with
      | none => rfl
      | some port => simp [hfalse]
  unfold postTransactions
  cases req.body with
  | none => rfl
  | some body =>
    simp only []
    cases decodeWire lib.decodeTransaction body.transaction with
    | error e => rfl
    | ok raw =>
      simp only []
      cases lib.transactionObjectNormalize raw with
      | error e => simp [htarget, stateCalls]
      | ok transaction => rfl

/-! ### `POST /dapp/message` -/

/-- A validated request carries the validated hash in `req.body.hash`. -/
theorem dappValidate_hash (lib : Library) (req : Request) (dappid hash : String)
    (body : Option Payload) (h : dappValidate lib req = Except.ok (dappid, hash, body)) :
    requestHash req = some hash := by
  unfold dappValidate at h
  unfold requestHash
  cases hb : req.body with
  | none => simp [hb] at h
  | some b =>
    simp only [hb] at h
    cases hd : b.dappid with
    | none => simp [hd] at h
    | some d =>
      simp only [hd] at h
      split at h
      · simp at h
      · split at h
        · simp at h
        · split at h
          · simp at h
          · split at h
            · simp at h
            · rename_i newHash _ hne
              simp only [Except.ok.injEq, Prod.mk.injEq] at h
              have : b.hash = some newHash := by simpa using hne
              simp only [this, h.2.1]

/-- The dispatcher callback starts no delivery. -/
theorem deliveries_dappMessageCallback (hash : String) (reply : DappReply) :
    deliveries (dappMessageCallback hash reply) = 0 := by
  simp only [dappMessageCallback]
  repeat' split
  all_goals rfl

/-- One request either leaves the table alone and delivers nothing, or records a
fresh validated hash and then delivers once. -/
theorem postDappMessage_cases (lib : Library) (messages : List String) (req : Request)
    (reply : DappReply) :
    ((postDappMessage lib messages req reply).1 = messages ∧
      deliveries (postDappMessage lib messages req reply).2 = 0 ∧
      messageEvents (postDappMessage lib messages req reply).2 = 0 ∧
      (∀ h, fingerprintOf lib req = some h → h ∈ messages)) ∨
    (∃ dappid hash body,
      fingerprintOf lib req = some hash ∧ requestHash req = some hash ∧ hash ∉ messages ∧
      postDappMessage lib messages req reply =
        (hash :: messages,
          Effect.setHeaders :: Effect.messagesSet hash :: Effect.dappsMessage dappid body ::
            dappMessageCallback hash reply)) := by
  cases hv : dappValidate lib req with
  | error body =>
    left
    simp [postDappMessage, fingerprintOf, hv, deliveries, messageEvents]
  | ok t =>
    obtain ⟨dappid, hash, body⟩ := t
    by_cases hmem : hash ∈ messages
    · left
      simp [postDappMessage, fingerprintOf, hv, hmem, deliveries, messageEvents]
    · right
      refine ⟨dappid, hash, body, ?_, dappValidate_hash lib req dappid hash body hv, hmem, ?_⟩
      · simp [fingerprintOf, hv]
      · simp [postDappMessage, hv, hmem]

/-- Over a run, the deliveries for fingerprint `h` number at most one, and none
when `h` was already in the table. -/
theorem deliveriesFor_run_le (lib : Library) (h : String) :
    ∀ (reqs : List (Request × DappReply)) (messages : List String),
      deliveriesFor lib h (postDappMessageRun lib messages reqs).2 ≤
        (if h ∈ messages then 0 else 1) := by
  intro reqs
  induction reqs with
  | nil => intro messages; simp [postDappMessageRun, deliveriesFor]
  | cons x rest ih =>
    intro messages
    obtain ⟨req, reply⟩ := x
    simp only [postDappMessageRun, deliveriesFor]
    rcases postDappMessage_cases lib messages req reply with ⟨h1, h2, _, _⟩ | ⟨d, hash, b, hfp, _, hnew, hstep⟩
    · rw [h2, h1]
      have := ih messages
      split <;> simpa using this
    · rw [hstep]
      simp only [deliveries, deliveries_dappMessageCallback, hfp]
      have := ih (hash :: messages)
      by_cases heq : hash = h
      · subst heq
        simp only [List.mem_cons, true_or, if_true] at this
        simp [hnew]
        omega
      · have hne : h ≠ hash := fun e => heq e.symm
        simp only [List.mem_cons, hne, false_or] at this
        simp [heq]
        exact this

/-- A recorded hash stays in the table through any run. -/
theorem mem_postDappMessageRun (lib : Library) (h : String) :
    ∀ (reqs : List (Request × DappReply)) (messages : List String),
      h ∈ messages → h ∈ (postDappMessageRun lib messages reqs).1 := by
  intro reqs
  induction reqs with
  | nil => intro messages hm; simpa [postDappMessageRun] using hm
  | cons x rest ih =>
    intro messages hm
    obtain ⟨req, reply⟩ := x
    simp only [postDappMessageRun]
    apply ih
    rcases postDappMessage_cases lib messages req reply with ⟨h1, _, _, _⟩ | ⟨d, hash, b, _, _, _, hstep⟩
    · rw [h1]; exact hm
    · rw [hstep]; exact List.mem_cons_of_mem _ hm

/-- C8: for every sequence of `POST /dapp/message` requests and every
fingerprint, `modules.dapps.message` is invoked at most once by the requests
carrying that fingerprint, and not at all when the fingerprint was already in
`private.messages`; a request whose hash is already in the table leaves the
table unchanged and causes no delivery and no `message` bus event; a request
that delivers has a validated hash that was not in the table, writes it to the
table immediately before the single delivery call, and the hash is in the table
afterwards; no request and no run ever removes a recorded hash. -/
theorem postDappMessage_delivers_once (lib : Library) (messages : List String) :
    (∀ reqs h, deliveriesFor lib h (postDappMessageRun lib messages reqs).2 ≤ 1) ∧
    (∀ reqs h, h ∈ messages →
      deliveriesFor lib h (postDappMessageRun lib messages reqs).2 = 0) ∧
    (∀ req reply h, requestHash req = some h → h ∈ messages →
      (postDappMessage lib messages req reply).1 = messages ∧
      deliveries (postDappMessage lib messages req reply).2 = 0 ∧
      messageEvents (postDappMessage lib messages req reply).2 = 0) ∧
    (∀ req reply, deliveries (postDappMessage lib messages req reply).2 ≠ 0 →
      ∃ h dappid body,
        fingerprintOf lib req = some h ∧ requestHash req = some h ∧ h ∉ messages ∧
        h ∈ (postDappMessage lib messages req reply).1 ∧
        (postDappMessage lib messages req reply).2 =
          Effect.setHeaders :: Effect.messagesSet h :: Effect.dappsMessage dappid body ::
            dappMessageCallback h reply ∧
        deliveries (postDappMessage lib messages req reply).2 = 1) ∧
    (∀ req reply h, h ∈ messages → h ∈ (postDappMessage lib messages req reply).1) ∧
    (∀ reqs h, h ∈ messages → h ∈ (postDappMessageRun lib messages reqs).1) := by
  refine ⟨?_, ?_, ?_, ?_, ?_, ?_⟩
  · intro reqs h
    have := deliveriesFor_run_le lib h reqs messages
    split at this <;> omega
  · intro reqs h hm
    have := deliveriesFor_run_le lib h reqs messages
    simp only [hm, if_true] at this
    omega
  · intro req reply h hreq hm
    rcases postDappMessage_cases lib messages req reply with
      ⟨h1, h2, h3, _⟩ | ⟨d, hash, b, _, hrh, hnew, _⟩
    · exact ⟨h1, h2, h3⟩
    · rw [hreq] at hrh
      cases hrh
      exact absurd hm hnew
  · intro req reply hdel
    rcases postDappMessage_cases lib messages req reply with
      ⟨_, h2, _, _⟩ | ⟨d, hash, b, hfp, hrh, hnew, hstep⟩
    · exact absurd h2 hdel
    · refine ⟨hash, d, b, hfp, hrh, hnew, ?_, ?_, ?_⟩
      · rw [hstep]; exact List.mem_cons_self _ _
      · rw [hstep]
      · rw [hstep]
        simp [deliveries, deliveries_dappMessageCallback]
  · intro req reply h hm
    rcases postDappMessage_cases lib messages req reply with
      ⟨h1, _, _, _⟩ | ⟨d, hash, b, _, _, _, hstep⟩
    · rw [h1]; exact hm
    · rw [hstep]; exact List.mem_cons_of_mem _ hm
  · intro reqs h hm
    exact mem_postDappMessageRun lib h reqs messages hm

/-- Example for C8: the same valid message relayed twice to a node with an empty
table is delivered exactly once and relayed on the bus exactly once. -/
theorem postDappMessage_delivers_once_witness :
    deliveriesFor rejectingLibrary "2"
      (postDappMessageRun rejectingLibrary []
        [(exampleDappRequest, okReply), (exampleDappRequest, okReply)]).2 ≤ 1 ∧
    (postDappMessageRun rejectingLibrary []
        [(exampleDappRequest, okReply), (exampleDappRequest, okReply)]) =
      (["2"],
       [(exampleDappRequest,
          [Effect.setHeaders, Effect.messagesSet "2", Effect.dappsMessage "d1" (some "hi"),
           Effect.busMessage "message" ["2"],
           Effect.respond 200 [("success", JVal.bool true)]]),
        (exampleDappRequest, [Effect.setHeaders, Effect.statusOnly 200])]) :=
  ⟨(postDappMessage_delivers_once rejectingLibrary []).1
      [(exampleDappRequest, okReply), (exampleDappRequest, okReply)] "2",
    by decide⟩

/-! ### Message fingerprint -/

/-- C9 (what the code does): the fingerprint computed by the call
`private.hashsum(body, timestamp)` is the same for every timestamp; the
timestamp is not part of the digested data. -/
theorem hashsumCall_ignores_timestamp (lib : Library) (body : Option Payload)
    (t1 t2 : Option Int) :
    hashsumCall lib body t1 = hashsumCall lib body t2 ∧
    hashsumCall lib body t1 = hashsum lib body := by
  exact ⟨rfl, rfl⟩

/-- C9 (evaluation at the failing input): body `hi` gets fingerprint `2` under
the stand-in digest both at timestamp 1 and at timestamp 2. -/
theorem hashsumCall_same_for_two_timestamps :
    hashsumCall rejectingLibrary (some "hi") (some 1) = Except.ok "2" ∧
    hashsumCall rejectingLibrary (some "hi") (some 2) = Except.ok "2" := by
  exact ⟨rfl, rfl⟩

/-! ### `GET /blocks/common` -/

/-- Splitting never yields an empty token list. -/
theorem splitOn_ne_nil (sep : Char) (s : List Char) : splitOn sep s ≠ [] := by
  cases s with
  | nil => simp [splitOn]
  | cons c cs =>
    simp only [splitOn]
    split
    · simp
    · split <;> simp

/-- Joining the tokens with the separator gives the input back. -/
theorem joinOn_splitOn (sep : Char) (s : List Char) : joinOn sep (splitOn sep s) = s := by
  induction s with
  | nil => rfl
  | cons c cs ih =>
    simp only [splitOn]
    split
    · rename_i hc
      cases hs : splitOn sep cs with
      | nil => exact absurd hs (splitOn_ne_nil sep cs)
      | cons t ts =>
        rw [hs] at ih
        simp only [joinOn, List.nil_append, ih, hc]
    · cases hs : splitOn sep cs with
      | nil => exact absurd hs (splitOn_ne_nil sep cs)
      | cons t ts =>
        rw [hs] at ih
        cases ts with
        | nil =>
          simp only [joinOn] at ih ⊢
          rw [ih]
        | cons u us =>
          simp only [joinOn, List.cons_append] at ih ⊢
          rw [ih]

/-- No token contains the separator. -/
theorem splitOn_no_sep (sep : Char) (s : List Char) : ∀ t ∈ splitOn sep s, sep ∉ t := by
  induction s with
  | nil => simp [splitOn]
  | cons c cs ih =>
    simp only [splitOn]
    split
    · intro t ht
      rcases List.mem_cons.mp ht with h | h
      · simp [h]
      · exact ih t h
    · rename_i hc
      cases hs : splitOn sep cs with
      | nil => exact absurd hs (splitOn_ne_nil sep cs)
      | cons u us =>
        rw [hs] at ih
        intro t ht
        rcases List.mem_cons.mp ht with h | h
        · subst h
          intro hmem
          rcases List.mem_cons.mp hmem with h2 | h2
          · exact hc h2.symm
          · exact ih u (List.mem_cons_self _ _) h2
        · exact ih t (List.mem_cons_of_mem _ h)

/-- The id test accepts exactly the non-empty lists of characters in `0`..`9`. -/
theorem isNumericId_iff (t : List Char) :
    isNumericId t = true ↔ t ≠ [] ∧ ∀ c ∈ t, 48 ≤ c.toNat ∧ c.toNat ≤ 57 := by
  have hdigit : ∀ c : Char, c.isDigit = true ↔ 48 ≤ c.toNat ∧ c.toNat ≤ 57 := by
    intro c
    simp only [Char.isDigit, Bool.and_eq_true, decide_eq_true_eq, ge_iff_le, Char.toNat]
    rw [UInt32.le_def, UInt32.le_def]
    rfl
  cases t with
  | nil => simp [isNumericId]
  | cons c cs =>
    simp only [isNumericId, List.isEmpty_cons, Bool.not_false, Bool.true_and, List.all_eq_true,
      ne_eq, reduceCtorEq, not_false_eq_true, true_and]
    constructor
    · intro h x hx
      exact (hdigit x).mp (h x hx)
    · intro h x hx
      exact (hdigit x).mpr (h x hx)

/-- The header schema of the ban guard, spelled out. -/
theorem validateCommonHeaders_iff (req : Request) :
    validateCommonHeaders req = true ↔
      (∃ p, req.port = some p ∧ 1 ≤ p ∧ p ≤ 65535) ∧
      (∃ m, req.magic = some m ∧ m.length ≤ 8) := by
  unfold validateCommonHeaders
  cases req.port <;> cases req.magic <;> simp

/-- C10 (evaluation at the failing input): `GET /blocks/common` with ids
`abc,def` from 10.0.0.1 with `port` header 8000 and the local magic: no token
remains, the header check of lines 139-153 passes, and the handler is left by a
`ReferenceError` on line 160 after the log line: no `modules.peer.state` call
is made, so the caller is not banned, and no response is sent. -/
theorem getBlocksCommon_ban_throws :
    filterIds "abc,def" = [] ∧
    validateCommonHeaders (port8000Request emptyBody) = true ∧
    getBlocksCommon
        (acceptingQuery { max := 10, min := 1, ids := "abc,def" }) (Except.ok none)
        (port8000Request emptyBody) =
      { effects := [Effect.setHeaders, Effect.log "log"],
        thrown := some "ReferenceError: RequestSanitizer is not defined" } ∧
    stateCalls (getBlocksCommon
        (acceptingQuery { max := 10, min := 1, ids := "abc,def" }) (Except.ok none)
        (port8000Request emptyBody)).effects = [] ∧
    responses (getBlocksCommon
        (acceptingQuery { max := 10, min := 1, ids := "abc,def" }) (Except.ok none)
        (port8000Request emptyBody)).effects = [] := by
  refine ⟨?_, ?_, ?_, ?_, ?_⟩ <;> decide

/-- With ids `abc,def` and a missing `port` header the header check fails: the
handler answers `Invalid block id sequence` without a Block Store query and
without a ban. -/
theorem getBlocksCommon_no_ban_without_port :
    filterIds "abc,def" = [] ∧
    getBlocksCommon
        (acceptingQuery { max := 10, min := 1, ids := "abc,def" }) (Except.ok none)
        (portlessRequest emptyBody) =
      { effects :=
          [Effect.setHeaders, Effect.log "log",
           Effect.respond 200
            [("success", JVal.bool false), ("error", JVal.str "Invalid block id sequence")]],
        thrown := none } := by
  refine ⟨?_, ?_⟩ <;> decide

/-- The handler of `GET /blocks/common` never calls `modules.peer.state`,
whatever the request, the sanitizer and the Block Store do. -/
theorem getBlocksCommon_never_bans
    (sanitize : Request → SanitizeResult CommonQuery) (dbReply : Except String (Option Payload))
    (req : Request) :
    stateCalls (getBlocksCommon sanitize dbReply req).effects = [] := by
  unfold getBlocksCommon
  cases sanitize req with
  | error e => rfl
  | report isValid issues query =>
    cases isValid with
    | false => rfl
    | true =>
      simp only [Bool.not_true, Bool.false_eq_true, if_false]
      split
      · split
        · split <;> rfl
        · rfl
      · rcases dbReply with e | common
        · rfl
        · cases common <;> rfl

/-- What the handler of `GET /blocks/common` does with an accepted query: it
keeps exactly the comma-separated tokens of `ids` made only of one or more
decimal digits, in their original order (`abc,123` gives `123`, `abc,def`
gives nothing).  If no token remains it issues no Block Store query; it
answers `Invalid block id sequence` when the header check of lines 139-153
fails, and is left by an exception, without any response, when the check
passes.  If at least one token remains it queries the Block Store once with
the quoted ids and answers. -/
theorem getBlocksCommon_filters
    (sanitize : Request → SanitizeResult CommonQuery) (dbReply : Except String (Option Payload))
    (req : Request) (issues : JVal) (query : CommonQuery)
    (hvalid : sanitize req = SanitizeResult.report true issues query) :
    (filterIds query.ids =
        ((splitOn ',' query.ids.data).filter isNumericId).map String.mk ∧
      joinOn ',' (splitOn ',' query.ids.data) = query.ids.data ∧
      (∀ t ∈ splitOn ',' query.ids.data, ',' ∉ t) ∧
      (∀ t, isNumericId t = true ↔ t ≠ [] ∧ ∀ c ∈ t, 48 ≤ c.toNat ∧ c.toNat ≤ 57) ∧
      filterIds "abc,123" = ["123"] ∧ filterIds "abc,def" = []) ∧
    (filterIds query.ids = [] →
      dbQueries (getBlocksCommon sanitize dbReply req).effects = 0 ∧
      (((∃ p, req.port = some p ∧ 1 ≤ p ∧ p ≤ 65535) ∧
          (∃ m, req.magic = some m ∧ m.length ≤ 8)) →
        (getBlocksCommon sanitize dbReply req).effects =
          [Effect.setHeaders, Effect.log "log"] ∧
        (getBlocksCommon sanitize dbReply req).thrown ≠ none) ∧
      (¬ ((∃ p, req.port = some p ∧ 1 ≤ p ∧ p ≤ 65535) ∧
          (∃ m, req.magic = some m ∧ m.length ≤ 8)) →
        getBlocksCommon sanitize dbReply req =
          { effects :=
              [Effect.setHeaders, Effect.log "log",
               Effect.respond 200
                [("success", JVal.bool false),
                 ("error", JVal.str "Invalid block id sequence")]],
            thrown := none })) ∧
    (filterIds query.ids ≠ [] →
      (getBlocksCommon sanitize dbReply req).thrown = none ∧
      dbQueries (getBlocksCommon sanitize dbReply req).effects = 1 ∧
      ∃ answer, (getBlocksCommon sanitize dbReply req).effects =
        [Effect.setHeaders,
         Effect.dbQuery ((filterIds query.ids).map escapeId) query.min query.max,
         Effect.respond 200 answer]) := by
  refine ⟨⟨rfl, joinOn_splitOn _ _, splitOn_no_sep _ _, isNumericId_iff, by decide, by decide⟩,
    ?_, ?_⟩
  · intro hempty
    refine ⟨?_, ?_, ?_⟩
    · simp only [getBlocksCommon, hvalid, hempty]
      cases validateCommonHeaders req <;> cases peerIpOf req <;> simp [dbQueries]
    · intro hhdr
      have hrep : validateCommonHeaders req = true := (validateCommonHeaders_iff req).mpr hhdr
      cases hip : peerIpOf req <;> simp [getBlocksCommon, hvalid, hempty, hrep, hip]
    · intro hhdr
      have hrep : validateCommonHeaders req = false := by
        cases h : validateCommonHeaders req with
        | false => rfl
        | true => exact absurd ((validateCommonHeaders_iff req).mp h) hhdr
      simp [getBlocksCommon, hvalid, hempty, hrep]
  · intro hne
    have hlen : ¬ ((filterIds query.ids).map escapeId).length = 0 := by
      simpa using hne
    rcases dbReply with e | common
    · refine ⟨?_, ?_,
        [("success", JVal.bool false), ("error", JVal.str "Database error")], ?_⟩ <;>
        simp [getBlocksCommon, hvalid, hlen, hne, dbQueries]
    · cases common with
      | none =>
        refine ⟨?_, ?_, [("success", JVal.bool true), ("common", JVal.null)], ?_⟩ <;>
          simp [getBlocksCommon, hvalid, hlen, hne, dbQueries]
      | some row =>
        refine ⟨?_, ?_, [("success", JVal.bool true), ("common", JVal.str row)], ?_⟩ <;>
          simp [getBlocksCommon, hvalid, hlen, hne, dbQueries]

/-- Example for the filter: ids `abc,123` from 10.0.0.1 keep the token `123`;
the Block Store is queried once with the quoted id and its empty answer is
reported as `common: null`. -/
theorem getBlocksCommon_filters_witness :
    (getBlocksCommon
        (acceptingQuery { max := 10, min := 1, ids := "abc,123" }) (Except.ok none)
        (port8000Request emptyBody)).thrown = none ∧
    dbQueries (getBlocksCommon
        (acceptingQuery { max := 10, min := 1, ids := "abc,123" }) (Except.ok none)
        (port8000Request emptyBody)).effects = 1 ∧
    ∃ answer, (getBlocksCommon
        (acceptingQuery { max := 10, min := 1, ids := "abc,123" }) (Except.ok none)
        (port8000Request emptyBody)).effects =
      [Effect.setHeaders,
       Effect.dbQuery ((filterIds "abc,123").map escapeId) 1 10,
       Effect.respond 200 answer] :=
  (getBlocksCommon_filters
    (acceptingQuery { max := 10, min := 1, ids := "abc,123" }) (Except.ok none)
    (port8000Request emptyBody) JVal.null { max := 10, min := 1, ids := "abc,123" } rfl).2.2
    (by decide)

/-! ### Random-peer requester -/

/-- Attempt counts add up over concatenation. -/
theorem attempts_append (xs ys : List ClientEvent) :
    attempts (xs ++ ys) = attempts xs + attempts ys := by
  induction xs with
  | nil => simp [attempts]
  | cons x xs ih =>
    cases x <;> simp [attempts, ih]
    omega

/-- Final callbacks concatenate over concatenation. -/
theorem doneEvents_append (xs ys : List ClientEvent) :
    doneEvents (xs ++ ys) = doneEvents xs ++ doneEvents ys := by
  induction xs with
  | nil => simp [doneEvents]
  | cons x xs ih => cases x <;> simp [doneEvents, ih]

/-- Effects of `getFromPeer` contain no directory query, no final callback and
no further request. -/
theorem clientEvents_map_effect (effects : List Effect) :
    attempts (effects.map ClientEvent.effect) = 0 ∧
    doneEvents (effects.map ClientEvent.effect) = [] ∧
    requestedPeers (effects.map ClientEvent.effect) = [] ∧
    (∀ limit, ClientEvent.peerList limit ∉ effects.map ClientEvent.effect) := by
  induction effects with
  | nil => simp [attempts, doneEvents, requestedPeers]
  | cons e es ih =>
    obtain ⟨h1, h2, h3, h4⟩ := ih
    refine ⟨by simpa [attempts] using h1, by simpa [doneEvents] using h2,
      by simpa [requestedPeers] using h3, ?_⟩
    intro limit hmem
    simp at hmem

/-- One attempt: one directory query with limit 1, first; a request to the first
returned peer if the directory returned one, and no final callback. -/
theorem attemptEvents_shape (cfg : Config) (options : Options) (a : AttemptAnswer) :
    attempts (attemptEvents cfg options a) = 1 ∧
    doneEvents (attemptEvents cfg options a) = [] ∧
    (attemptEvents cfg options a).head? = some (ClientEvent.peerList 1) ∧
    (∀ limit, ClientEvent.peerList limit ∈ attemptEvents cfg options a → limit = 1) ∧
    requestedPeers (attemptEvents cfg options a) =
      (match a.listErr, a.peers with
        | none, peer :: _ => [peer]
        | _, _ => []) := by
  unfold attemptEvents
  cases hl : a.listErr with
  | some e => simp [attempts, doneEvents, requestedPeers]
  | none =>
    cases hp : a.peers with
    | nil => simp [attempts, doneEvents, requestedPeers]
    | cons peer rest =>
      simp only []
      cases hg : getFromPeer cfg peer options true a.err a.response a.body with
      | error e => simp [attempts, doneEvents, requestedPeers]
      | ok effects =>
        simp only []
        obtain ⟨h1, h2, h3, h4⟩ := clientEvents_map_effect effects
        refine ⟨?_, ?_, ?_, ?_, ?_⟩
        · simpa [attempts] using h1
        · simpa [doneEvents] using h2
        · simp
        · intro limit hmem
          simp only [List.mem_cons, ClientEvent.peerList.injEq, reduceCtorEq, false_or] at hmem
          rcases hmem with h | h
          · exact h
          · exact absurd h (h4 limit)
        · simpa [requestedPeers] using h3

/-- A failing attempt calls back with an error and no result. -/
theorem attemptResult_of_fails (cfg : Config) (options : Options) (a : AttemptAnswer)
    (h : attemptFails a = true) :
    ∃ e, attemptResult cfg options a = some (some e, none) := by
  unfold attemptResult
  cases hl : a.listErr with
  | some e => exact ⟨_, rfl⟩
  | none =>
    cases hp : a.peers with
    | nil => exact ⟨_, rfl⟩
    | cons peer rest =>
      simp only []
      cases he : a.err with
      | some e =>
        refine ⟨CbError.request e, ?_⟩
        simp only [getFromPeer, callCb, if_true]
        cases isTimeoutClass e <;> cases options.not_ban <;> rfl
      | none =>
        cases hr : a.response with
        | none => simp [attemptFails, hl, hp, he, hr] at h
        | some r =>
          have hs : r.statusCode ≠ 200 := by
            simpa [attemptFails, hl, hp, he, hr] using h
          refine ⟨CbError.text ("request status code" ++ toString r.statusCode), ?_⟩
          simp only [getFromPeer, callCb, if_true, bne_iff_ne, ne_eq, hs, not_false_eq_true]
          cases options.not_ban <;> rfl

/-- A successful attempt calls back without error, with the body and the first
peer the directory returned. -/
theorem attemptResult_of_succeeds (cfg : Config) (options : Options) (a : AttemptAnswer)
    (h : attemptSucceeds a = true) :
    ∃ peer, a.peers.head? = some peer ∧
      attemptResult cfg options a = some (none, some (a.body, peer)) := by
  unfold attemptResult
  cases hl : a.listErr with
  | some e => simp [attemptSucceeds, hl] at h
  | none =>
    cases hp : a.peers with
    | nil => simp [attemptSucceeds, hp] at h
    | cons peer rest =>
      refine ⟨peer, rfl, ?_⟩
      simp only []
      cases he : a.err with
      | some e => simp [attemptSucceeds, he] at h
      | none =>
        cases hr : a.response with
        | none => simp [attemptSucceeds, hr] at h
        | some r =>
          have hs : r.statusCode = 200 := by
            simpa [attemptSucceeds, hl, hp, he, hr] using h
          simp only [getFromPeer, callCb, if_true, hs, bne_self_eq_false, Bool.false_eq_true,
            if_false]
          cases validateResponseHeaders r.headers with
          | false => rfl
          | true =>
            simp only [Bool.not_true, Bool.false_eq_true, if_false]
            cases r.headers.port with
            | none => rfl
            | some p =>
              simp only []
              split <;> rfl

/-- When every remaining attempt fails, the loop runs them all and ends with the
final callback receiving an error. -/
theorem retryLoop_all_fail (events : Nat → List ClientEvent)
    (result : Nat → Option (Option CbError × Option PeerResult)) :
    ∀ (n i : Nat), (∀ j, i ≤ j → j < i + (n + 1) → ∃ e, result j = some (some e, none)) →
      ∃ e, retryLoop events result (n + 1) i =
        eventsFrom events (n + 1) i ++ [ClientEvent.done (some e) none] := by
  intro n
  induction n with
  | zero =>
    intro i h
    obtain ⟨e, he⟩ := h i (Nat.le_refl i) (by omega)
    exact ⟨e, by simp [retryLoop, eventsFrom, he]⟩
  | succ n ih =>
    intro i h
    obtain ⟨e, he⟩ := h i (Nat.le_refl i) (by omega)
    obtain ⟨e2, he2⟩ := ih (i + 1) (fun j h1 h2 => h j (by omega) (by omega))
    refine ⟨e2, ?_⟩
    rw [retryLoop, he]
    simp only [Nat.add_one_ne_zero, if_false]
    rw [he2]
    simp [eventsFrom]

/-- When attempt `i + k` is the first to succeed and attempts remain for it, the
loop runs attempts `i` to `i + k` and ends with the final callback receiving
that attempt's result. -/
theorem retryLoop_first_success (events : Nat → List ClientEvent)
    (result : Nat → Option (Option CbError × Option PeerResult)) (r : Option PeerResult) :
    ∀ (k n i : Nat), k < n →
      (∀ j, i ≤ j → j < i + k → ∃ e, result j = some (some e, none)) →
      result (i + k) = some (none, r) →
      retryLoop events result n i =
        eventsFrom events (k + 1) i ++ [ClientEvent.done none r] := by
  intro k
  induction k with
  | zero =>
    intro n i hn _ hr
    obtain ⟨m, rfl⟩ : ∃ m, n = m + 1 := ⟨n - 1, by omega⟩
    simp only [Nat.add_zero] at hr
    simp [retryLoop, eventsFrom, hr]
  | succ k ih =>
    intro n i hn hfail hr
    obtain ⟨m, rfl⟩ : ∃ m, n = m + 1 := ⟨n - 1, by omega⟩
    obtain ⟨e, he⟩ := hfail i (Nat.le_refl i) (by omega)
    have hm : m ≠ 0 := by omega
    have hrest := ih m (i + 1) (by omega) (fun j h1 h2 => hfail j (by omega) (by omega))
      (by rw [← hr]; congr 1; omega)
    rw [retryLoop, he]
    simp only [hm, if_false]
    rw [hrest]
    simp [eventsFrom]

/-- The loop never makes more attempts than it was given, and queries the
directory with limit 1 only. -/
theorem retryLoop_bounded (events : Nat → List ClientEvent)
    (result : Nat → Option (Option CbError × Option PeerResult))
    (hone : ∀ j, attempts (events j) = 1)
    (hlimit : ∀ j limit, ClientEvent.peerList limit ∈ events j → limit = 1) :
    ∀ (n i : Nat), attempts (retryLoop events result n i) ≤ n ∧
      ∀ limit, ClientEvent.peerList limit ∈ retryLoop events result n i → limit = 1 := by
  intro n
  induction n with
  | zero => intro i; simp [retryLoop, attempts]
  | succ n ih =>
    intro i
    rw [retryLoop]
    cases hres : result i with
    | none =>
      simp only []
      exact ⟨by rw [hone]; omega, hlimit i⟩
    | some res =>
      obtain ⟨err, r⟩ := res
      cases err with
      | none =>
        simp only []
        refine ⟨by simp [attempts_append, hone, attempts], ?_⟩
        intro limit hmem
        simp only [List.mem_append, List.mem_singleton, reduceCtorEq, or_false] at hmem
        exact hlimit i limit hmem
      | some e =>
        simp only []
        split
        · refine ⟨by simp [attempts_append, hone, attempts], ?_⟩
          intro limit hmem
          simp only [List.mem_append, List.mem_singleton, reduceCtorEq, or_false] at hmem
          exact hlimit i limit hmem
        · obtain ⟨h1, h2⟩ := ih (i + 1)
          refine ⟨by rw [attempts_append, hone]; omega, ?_⟩
          intro limit hmem
          rcases List.mem_append.mp hmem with h | h
          · exact hlimit i limit h
          · exact h2 limit h

/-- The events of `count` attempts hold `count` directory queries and no final
callback. -/
theorem eventsFrom_counts (events : Nat → List ClientEvent)
    (hone : ∀ j, attempts (events j) = 1) (hdone : ∀ j, doneEvents (events j) = []) :
    ∀ (count i : Nat), attempts (eventsFrom events count i) = count ∧
      doneEvents (eventsFrom events count i) = [] := by
  intro count
  induction count with
  | zero => intro i; simp [eventsFrom, attempts, doneEvents]
  | succ count ih =>
    intro i
    obtain ⟨h1, h2⟩ := ih (i + 1)
    simp only [eventsFrom, attempts_append, doneEvents_append, hone, hdone, h1, h2]
    exact ⟨by omega, rfl⟩

/-- C11: for every options value and every behaviour of the Peer Directory and
of the peers, `getFromRandomPeer` makes at most 20 attempts; each attempt
queries the Peer Directory once, with limit 1, and calls `getFromPeer` on the
first returned peer if one is returned; when attempt `k` (counting from 0, `k`
below 20) is the first that succeeds, exactly `k + 1` attempts are made and the
final callback is invoked once, without error, with that attempt's body and
peer; when all 20 attempts fail (directory error, empty peer list or request
failure), exactly 20 attempts are made and the final callback is invoked once,
with an error and no result. -/
theorem getFromRandomPeer_retries (cfg : Config) (options : Options)
    (answers : Nat → AttemptAnswer) :
    attempts (getFromRandomPeer cfg options answers) ≤ 20 ∧
    (∀ limit, ClientEvent.peerList limit ∈ getFromRandomPeer cfg options answers →
      limit = 1) ∧
    (∀ a, attempts (attemptEvents cfg options a) = 1 ∧
      (attemptEvents cfg options a).head? = some (ClientEvent.peerList 1) ∧
      requestedPeers (attemptEvents cfg options a) =
        (match a.listErr, a.peers with
          | none, peer :: _ => [peer]
          | _, _ => [])) ∧
    (∀ k, k < 20 → (∀ j, j < k → attemptFails (answers j) = true) →
      attemptSucceeds (answers k) = true →
      ∃ peer, (answers k).peers.head? = some peer ∧
        getFromRandomPeer cfg options answers =
          eventsFrom (fun i => attemptEvents cfg options (answers i)) (k + 1) 0 ++
            [ClientEvent.done none (some ((answers k).body, peer))] ∧
        attempts (getFromRandomPeer cfg options answers) = k + 1 ∧
        doneEvents (getFromRandomPeer cfg options answers) =
          [(none, some ((answers k).body, peer))]) ∧
    ((∀ j, j < 20 → attemptFails (answers j) = true) →
      ∃ e, getFromRandomPeer cfg options answers =
          eventsFrom (fun i => attemptEvents cfg options (answers i)) 20 0 ++
            [ClientEvent.done (some e) none] ∧
        attempts (getFromRandomPeer cfg options answers) = 20 ∧
        doneEvents (getFromRandomPeer cfg options answers) = [(some e, none)]) := by
  have hone : ∀ j, attempts (attemptEvents cfg options (answers j)) = 1 :=
    fun j => (attemptEvents_shape cfg options (answers j)).1
  have hdone : ∀ j, doneEvents (attemptEvents cfg options (answers j)) = [] :=
    fun j => (attemptEvents_shape cfg options (answers j)).2.1
  have hlimit : ∀ j limit,
      ClientEvent.peerList limit ∈ attemptEvents cfg options (answers j) → limit = 1 :=
    fun j => (attemptEvents_shape cfg options (answers j)).2.2.2.1
  have hbound := retryLoop_bounded (fun i => attemptEvents cfg options (answers i))
    (fun i => attemptResult cfg options (answers i)) hone hlimit 20 0
  refine ⟨hbound.1, hbound.2, ?_, ?_, ?_⟩
  · intro a
    have h := attemptEvents_shape cfg options a
    exact ⟨h.1, h.2.2.1, h.2.2.2.2⟩
  · intro k hk hfail hsucc
    obtain ⟨peer, hpeer, hres⟩ := attemptResult_of_succeeds cfg options (answers k) hsucc
    have htrace : getFromRandomPeer cfg options answers =
        eventsFrom (fun i => attemptEvents cfg options (answers i)) (k + 1) 0 ++
          [ClientEvent.done none (some ((answers k).body, peer))] := by
      unfold getFromRandomPeer
      apply retryLoop_first_success _ _ _ k 20 0 hk
      · intro j _ hj
        exact attemptResult_of_fails cfg options (answers j) (hfail j (by omega))
      · simpa using hres
    have hcount := eventsFrom_counts (fun i => attemptEvents cfg options (answers i))
      hone hdone (k + 1) 0
    refine ⟨peer, hpeer, htrace, ?_, ?_⟩
    · rw [htrace, attempts_append, hcount.1]
      rfl
    · rw [htrace, doneEvents_append, hcount.2]
      rfl
  · intro hfail
    obtain ⟨e, he⟩ := retryLoop_all_fail (fun i => attemptEvents cfg options (answers i))
      (fun i => attemptResult cfg options (answers i)) 19 0
      (fun j _ hj => attemptResult_of_fails cfg options (answers j) (hfail j (by omega)))
    have hcount := eventsFrom_counts (fun i => attemptEvents cfg options (answers i))
      hone hdone 20 0
    have htrace : getFromRandomPeer cfg options answers =
        eventsFrom (fun i => attemptEvents cfg options (answers i)) 20 0 ++
          [ClientEvent.done (some e) none] := he
    refine ⟨e, htrace, ?_, ?_⟩
    · rw [htrace, attempts_append, hcount.1]
      rfl
    · rw [htrace, doneEvents_append, hcount.2]
      rfl

/-- Example for C11: with a directory that never has a peer, 20 attempts are
made and the callback gets `No peers in db`; when the third attempt is the
first to find a peer that answers 200, three attempts are made and the callback
gets that answer. -/
theorem getFromRandomPeer_retries_witness :
    attempts (getFromRandomPeer exampleConfig { not_ban := false } (fun _ => noPeerAnswer)) ≤ 20 ∧
    attempts (getFromRandomPeer exampleConfig { not_ban := false } (fun _ => noPeerAnswer)) = 20 ∧
    doneEvents (getFromRandomPeer exampleConfig { not_ban := false } (fun _ => noPeerAnswer)) =
      [(some (CbError.text "No peers in db"), none)] ∧
    getFromRandomPeer exampleConfig { not_ban := false }
        (fun i => if i < 2 then noPeerAnswer else successAnswer) =
      [ClientEvent.peerList 1, ClientEvent.peerList 1, ClientEvent.peerList 1,
       ClientEvent.getFromPeer examplePeer,
       ClientEvent.effect (Effect.callback none (some ("pong", examplePeer))),
       ClientEvent.done none (some ("pong", examplePeer))] :=
  ⟨(getFromRandomPeer_retries exampleConfig { not_ban := false } (fun _ => noPeerAnswer)).1,
    by decide, by decide, by decide⟩

/-! ### Broadcast engine -/

/-- What `replenish 5` does to a state with at most 5 running iterators. -/
theorem replenish_spec :
    ∀ (pending : List Peer) (s : BroadcastState), s.running ≤ 5 →
      (replenish 5 pending s).running ≤ 5 ∧
      (replenish 5 pending s).sent ++ (replenish 5 pending s).pending = s.sent ++ pending ∧
      (s.inFlight.Sublist s.sent →
        (replenish 5 pending s).inFlight.Sublist (replenish 5 pending s).sent) ∧
      ((replenish 5 pending s).pending ≠ [] → (replenish 5 pending s).running = 5) ∧
      (replenish 5 pending s).pending.length + (replenish 5 pending s).running =
        pending.length + s.running ∧
      (replenish 5 pending s).callbacks = s.callbacks := by
  intro pending
  induction pending with
  | nil =>
    intro s hs
    simp [replenish, hs]
  | cons peer rest ih =>
    intro s hs
    by_cases hlt : s.running < 5
    · have hnext := ih
        { s with pending := rest, running := s.running + 1, sent := s.sent ++ [peer],
                 inFlight := s.inFlight ++ [peer] } (by simp; omega)
      simp only [replenish, hlt, if_true]
      obtain ⟨h1, h2, h3, h4, h5, h6⟩ := hnext
      refine ⟨h1, ?_, ?_, h4, ?_, h6⟩
      · rw [h2]; simp
      · intro hsub
        exact h3 (List.Sublist.append hsub (List.Sublist.refl _))
      · rw [h5]; simp; omega
    · have h5 : s.running = 5 := by omega
      simp [replenish, hlt, h5]

/-- The invariant holds when `async.eachLimit` has started its first iterators. -/
theorem broadcastInv_start (peers : List Peer) :
    BroadcastInv peers 0 (broadcastStart none peers) := by
  unfold broadcastStart
  cases peers with
  | nil => simp [BroadcastInv]
  | cons peer rest =>
    simp only [List.isEmpty_cons, Bool.false_eq_true, if_false]
    obtain ⟨h1, h2, h3, h4, h5, h6⟩ := replenish_spec (peer :: rest)
      { pending := peer :: rest, running := 0, sent := [], inFlight := [], callbacks := [] }
      (by simp)
    refine ⟨h1, by simpa using h2, h3 (List.Sublist.refl _), h4, by simpa using h5, ?_⟩
    rw [h6]
    simp

/-- Every event preserves the invariant; an iterator callback advances the tick
count by one. -/
theorem broadcastInv_step (peers : List Peer) (ticks : Nat) (s : BroadcastState)
    (e : BroadcastEvent) (h : BroadcastInv peers ticks s) :
    BroadcastInv peers (ticks + immediates [e]) (broadcastStep peers s e) := by
  obtain ⟨h1, h2, h3, h4, h5, h6⟩ := h
  cases e with
  | settle i =>
    simp only [broadcastStep, immediates, Nat.add_zero]
    exact ⟨h1, h2, (List.eraseIdx_sublist _ _).trans h3, h4, h5, h6⟩
  | immediate =>
    simp only [broadcastStep, immediates, Nat.zero_add]
    by_cases hrun : s.running = 0
    · simp only [hrun, if_true]
      have hpend : s.pending = [] := by
        by_contra hne
        have := h4 hne
        omega
      have hlen : peers.length ≤ ticks := by
        rw [hpend, hrun] at h5
        simp at h5
        omega
      refine ⟨h1, h2, h3, h4, ?_, ?_⟩
      · rw [hpend, hrun]; simp; omega
      · rw [h6]
        simp [hlen, Nat.le_succ_of_le hlen]
    · simp only [hrun, if_false]
      have hticks : ticks < peers.length := by omega
      have hcb : s.callbacks = [] := by
        rw [h6]; simp; omega
      cases hpend : s.pending with
      | nil =>
        rw [hpend] at h5 h2
        simp only [List.isEmpty_nil, if_true]
        simp only [List.length_nil, Nat.zero_add] at h5
        by_cases hlast : s.running - 1 = 0
        · simp only [hlast, if_true]
          refine ⟨by simp, by simpa [hpend] using h2, h3, by simp [hpend], ?_, ?_⟩
          · simp [hpend]; omega
          · have : peers.length ≤ ticks + 1 := by omega
            simp [hcb, this]
        · simp only [hlast, if_false]
          refine ⟨by simp; omega, by simpa [hpend] using h2, h3, by simp [hpend], ?_, ?_⟩
          · simp [hpend]; omega
          · have : ¬ peers.length ≤ ticks + 1 := by omega
            simp [hcb, this]
      | cons peer rest =>
        have hfive : s.running = 5 := h4 (by simp [hpend])
        simp only [List.isEmpty_cons, Bool.false_eq_true, if_false]
        obtain ⟨r1, r2, r3, r4, r5, r6⟩ := replenish_spec (peer :: rest)
          { pending := peer :: rest, running := s.running - 1, sent := s.sent,
            inFlight := s.inFlight, callbacks := s.callbacks } (by simp; omega)
        rw [hpend] at h2 h5
        refine ⟨r1, ?_, r3 h3, r4, ?_, ?_⟩
        · rw [r2]; exact h2
        · rw [r5]
          simp only [List.length_cons] at h5 ⊢
          omega
        · rw [r6]
          simp only [List.length_cons] at h5
          have : ¬ peers.length ≤ ticks + 1 := by omega
          simp [hcb, this]

/-- The invariant holds after every sequence of events. -/
theorem broadcastInv_run (peers : List Peer) (events : List BroadcastEvent) :
    BroadcastInv peers (immediates events) (broadcastRun peers events) := by
  have key : ∀ (es : List BroadcastEvent) (s : BroadcastState) (ticks : Nat),
      BroadcastInv peers ticks s →
      BroadcastInv peers (ticks + immediates es) (es.foldl (broadcastStep peers) s) := by
    intro es
    induction es with
    | nil => intro s ticks h; simpa [immediates] using h
    | cons e rest ih =>
      intro s ticks h
      have hstep := broadcastInv_step peers ticks s e h
      have hrest := ih (broadcastStep peers s e) (ticks + immediates [e]) hstep
      have hsum : ticks + immediates [e] + immediates rest = ticks + immediates (e :: rest) := by
        cases e <;> simp [immediates]
        omega
      rw [hsum] at hrest
      exact hrest
  have := key events (broadcastStart none peers) 0 (broadcastInv_start peers)
  simpa [broadcastRun] using this

/-- C12 (evaluation at the failing input): a broadcast over 20 peers none of
whose requests has been answered yet has 5 requests in flight before the first
iterator callback, 6 one callback later, and all 20 after 15 iterator
callbacks: more than 5.  The slot of `async.eachLimit(peers, 5, ...)` is
released by `setImmediate(cb)` on line 530, not by the completion of the
request. -/
theorem broadcast_twenty_in_flight :
    twentyPeers.length = 20 ∧
    (broadcastRun twentyPeers []).inFlight.length = 5 ∧
    (broadcastRun twentyPeers [BroadcastEvent.immediate]).inFlight.length = 6 ∧
    (broadcastRun twentyPeers (List.replicate 15 BroadcastEvent.immediate)).inFlight =
      twentyPeers ∧
    ¬ (broadcastRun twentyPeers
        (List.replicate 15 BroadcastEvent.immediate)).inFlight.length ≤ 5 := by
  refine ⟨?_, ?_, ?_, ?_, ?_⟩ <;> decide

/-- What the limit of `async.eachLimit(peers, 5, ...)` does bound in `broadcast`:
for every broadcast call whose peer list was returned without error and for
every sequence of iterator callbacks and request completions, at no instant are
more than 5 iterators running (`getFromPeer` called, the iterator's
`setImmediate` callback not yet run); the requests sent
so far are an initial segment of the peer list, one per listed peer, and the
requests in flight are among them, so they number at most the length of the
list (at most 20 for a list of up to 20 peers); once as many iterator callbacks
have run as there are peers every listed peer has been sent exactly one
request and the call has completed exactly once, with the peer list used; it
has not completed before. -/
theorem broadcast_dispatch_bounded (peers : List Peer) (events : List BroadcastEvent) :
    (broadcastRun peers events).running ≤ 5 ∧
    (broadcastRun peers events).sent ++ (broadcastRun peers events).pending = peers ∧
    (broadcastRun peers events).inFlight.Sublist (broadcastRun peers events).sent ∧
    (broadcastRun peers events).inFlight.length ≤ peers.length ∧
    (peers.length ≤ 20 → (broadcastRun peers events).inFlight.length ≤ 20) ∧
    (peers.length ≤ immediates events →
      (broadcastRun peers events).sent = peers ∧
      (broadcastRun peers events).pending = [] ∧
      (broadcastRun peers events).running = 0 ∧
      (broadcastRun peers events).callbacks = [(none, some peers)]) ∧
    (immediates events < peers.length → (broadcastRun peers events).callbacks = []) := by
  obtain ⟨h1, h2, h3, _, h5, h6⟩ := broadcastInv_run peers events
  have hlen : (broadcastRun peers events).inFlight.length ≤ peers.length := by
    have hsub := h3.length_le
    have hsent : (broadcastRun peers events).sent.length ≤ peers.length := by
      have := congrArg List.length h2
      simp only [List.length_append] at this
      omega
    omega
  refine ⟨h1, h2, h3, hlen, fun h => Nat.le_trans hlen h, ?_, ?_⟩
  · intro hdone
    have hzero : (broadcastRun peers events).pending.length +
        (broadcastRun peers events).running = 0 := by
      rw [h5]; omega
    have hpend : (broadcastRun peers events).pending = [] :=
      List.length_eq_zero.mp (by omega)
    refine ⟨?_, hpend, by omega, ?_⟩
    · rw [hpend] at h2
      simpa using h2
    · rw [h6]
      simp [hdone]
  · intro hnot
    rw [h6]
    have : ¬ peers.length ≤ immediates events := by omega
    simp [this]

/-- Example: a broadcast over 20 peers in which two requests are answered
between the 20 iterator callbacks has sent one request to each listed peer and
completed once with the list, with at most 5 iterators running at the end and
18 requests still in flight. -/
theorem broadcast_dispatch_bounded_witness :
    (broadcastRun twentyPeers
        (List.replicate 7 BroadcastEvent.immediate ++ [BroadcastEvent.settle 0,
          BroadcastEvent.settle 3] ++ List.replicate 13 BroadcastEvent.immediate)).running ≤ 5 ∧
    (broadcastRun twentyPeers
        (List.replicate 7 BroadcastEvent.immediate ++ [BroadcastEvent.settle 0,
          BroadcastEvent.settle 3] ++ List.replicate 13 BroadcastEvent.immediate)).sent =
      twentyPeers ∧
    (broadcastRun twentyPeers
        (List.replicate 7 BroadcastEvent.immediate ++ [BroadcastEvent.settle 0,
          BroadcastEvent.settle 3] ++ List.replicate 13 BroadcastEvent.immediate)).callbacks =
      [(none, some twentyPeers)] ∧
    (broadcastRun twentyPeers
        (List.replicate 7 BroadcastEvent.immediate ++ [BroadcastEvent.settle 0,
          BroadcastEvent.settle 3] ++
          List.replicate 13 BroadcastEvent.immediate)).inFlight.length = 18 :=
  ⟨(broadcast_dispatch_bounded twentyPeers
      (List.replicate 7 BroadcastEvent.immediate ++ [BroadcastEvent.settle 0,
        BroadcastEvent.settle 3] ++ List.replicate 13 BroadcastEvent.immediate)).1,
    by decide, by decide, by decide⟩

end Transport
